import Mathlib

/-!
# ARQ engines: Go-Back-N, Selective-Repeat and Stop-and-Wait

A shallow embedding of the sender and receiver classes of `go_backn_arq.cc`,
`selective-arq.cc` and `stop_wait.cc`.

Conventions of the embedding.

* `uint32_t` values are natural numbers; every `+`, `-` and `++` of the source
  that is carried out on `uint32_t` is reduced modulo `2^32` (`u32add`, `u32sub`).
* An ns-3 `EventId` is represented by what the code can observe of it, the
  result of `IsRunning()`: `true` from `Simulator::Schedule` until the event
  either fires or is cancelled.  The scheduler fires only running events, and
  an event that fires is no longer running while its callback executes.
* Every class carries a ghost field `sent`, the log of the packets handed to
  the socket (oldest first).  A Go-Back-N or Selective-Repeat packet is
  represented by the sequence number of its `SeqTsHeader`.
* `while`/`for` loops are structural recursions on a fuel argument; for each
  loop a lemma shows that the fuel supplied by the caller lets the loop reach
  its exit test.
-/

/-! ## Machine arithmetic -/

/-- Addition on `uint32_t`. -/
def u32add (a b : Nat) : Nat := (a + b) % 4294967296

/-- Subtraction on `uint32_t`. -/
def u32sub (a b : Nat) : Nat := (a % 4294967296 + 4294967296 - b % 4294967296) % 4294967296

/-! ## Go-Back-N (`go_backn_arq.cc`) -/

/-- State of `GoBackNSender`.  The members `m_timers` and `m_acked` of the class are
never read or written by any method and are left out. -/
structure GoBackNSender where
  m_totalPackets : Nat
  m_windowSize : Nat
  m_base : Nat
  m_nextSeq : Nat
  /-- Result of `m_timeoutEvent.IsRunning()`. -/
  m_timeoutEvent : Bool
  /-- Sequence numbers passed to `m_socket->Send`, oldest first -/
  sent : List Nat
  deriving DecidableEq

/-- Constructor followed by `Setup`. -/
def GoBackNSender.Setup (totalPackets windowSize : Nat) : GoBackNSender :=
  { m_totalPackets := totalPackets, m_windowSize := windowSize, m_base := 0, m_nextSeq := 0,
    m_timeoutEvent := false, sent := [] }

/-- Guard of the `while` loop of `SendWindow`. -/
def GoBackNSender.canSend (s : GoBackNSender) : Prop :=
  s.m_nextSeq < u32add s.m_base s.m_windowSize ∧ s.m_nextSeq < s.m_totalPackets

instance (s : GoBackNSender) : Decidable s.canSend := by
  unfold GoBackNSender.canSend; infer_instance

/-- The `while` loop of `SendWindow`, at most `fuel` iterations. -/
def GoBackNSender.sendLoop : Nat → GoBackNSender → GoBackNSender
  | 0, s => s
  | fuel + 1, s =>
    if s.canSend then
      GoBackNSender.sendLoop fuel
        { s with sent := s.sent ++ [s.m_nextSeq], m_nextSeq := u32add s.m_nextSeq 1 }
    else s

/-- Method `GoBackNSender::SendWindow`: send while the window and the packet budget allow, then
arm the timer unless it is running. -/
def GoBackNSender.SendWindow (s : GoBackNSender) : GoBackNSender :=
  let s1 := GoBackNSender.sendLoop (s.m_totalPackets - s.m_nextSeq) s
  if s1.m_timeoutEvent then s1 else { s1 with m_timeoutEvent := true }

/-- Method `GoBackNSender::StartApplication`. -/
def GoBackNSender.StartApplication (s : GoBackNSender) : GoBackNSender :=
  s.SendWindow

/-- Method `GoBackNSender::Timeout` (the body of the callback). -/
def GoBackNSender.Timeout (s : GoBackNSender) : GoBackNSender :=
  GoBackNSender.SendWindow { s with m_nextSeq := s.m_base }

/-- The scheduler fires `m_timeoutEvent`: the event stops running and `Timeout` executes. -/
def GoBackNSender.fireTimeout (s : GoBackNSender) : GoBackNSender :=
  GoBackNSender.Timeout { s with m_timeoutEvent := false }

/-- Method `GoBackNSender::HandleAck` on a packet whose header carries `ack`. -/
def GoBackNSender.HandleAck (s : GoBackNSender) (ack : Nat) : GoBackNSender :=
  let s1 : GoBackNSender :=
    if s.m_base ≤ ack then
      let b := u32add ack 1
      if b = s.m_nextSeq then
        { s with m_base := b, m_timeoutEvent := false }
      else
        { s with m_base := b, m_timeoutEvent := true }
    else s
  if s1.m_base < s1.m_totalPackets then s1.SendWindow else s1

/-- What can happen to a running Go-Back-N sender. -/
inductive GbnEvent where
  | timeout : GbnEvent
  | ack : Nat → GbnEvent
  deriving DecidableEq

/-- One event applied to the sender. -/
def GoBackNSender.step (s : GoBackNSender) : GbnEvent → GoBackNSender
  | GbnEvent.timeout => s.fireTimeout
  | GbnEvent.ack a => s.HandleAck a

/-- Run a list of events from `s`; `guard s e` says whether event `e` may occur in state `s`.
The result is `none` when some event occurs where the guard forbids it. -/
def GoBackNSender.run (guard : GoBackNSender → GbnEvent → Bool) :
    GoBackNSender → List GbnEvent → Option GoBackNSender
  | s, [] => some s
  | s, e :: es => if guard s e then GoBackNSender.run guard (s.step e) es else none

/-- Any timeout, and any ack whose increment does not overflow `uint32_t`. -/
def GoBackNSender.ackNoOverflow (_ : GoBackNSender) : GbnEvent → Bool
  | GbnEvent.timeout => true
  | GbnEvent.ack a => decide (a + 1 < 4294967296)

/-- The timer fires only while it runs; an ack names a sequence number already sent. -/
def GoBackNSender.liveAndSent (s : GoBackNSender) : GbnEvent → Bool
  | GbnEvent.timeout => s.m_timeoutEvent
  | GbnEvent.ack a => decide (a < s.m_nextSeq)

/-- State of `GoBackNReceiver`. -/
structure GoBackNReceiver where
  m_expected : Nat
  /-- Sequence numbers of the acks passed to `socket->Send`, oldest first -/
  sent : List Nat
  deriving DecidableEq

/-- Method `GoBackNReceiver::HandleRead` on a packet whose header carries `seq`. -/
def GoBackNReceiver.HandleRead (r : GoBackNReceiver) (seq : Nat) : GoBackNReceiver :=
  let r1 : GoBackNReceiver :=
    if seq = r.m_expected then { r with m_expected := u32add r.m_expected 1 } else r
  { r1 with sent := r1.sent ++ [u32sub r1.m_expected 1] }

/-! ## Selective-Repeat (`selective-arq.cc`) -/

/-- State of `SelectiveSender`.  `m_timers k` is `none` when the map has no entry for `k`
and `some r` when it has one, `r` being `IsRunning()` of the stored `EventId`. -/
structure SelectiveSender where
  m_packetSize : Nat
  m_totalPackets : Nat
  m_windowSize : Nat
  m_timers : Nat → Option Bool
  m_ackedPackets : Finset Nat
  m_base : Nat
  /-- Sequence numbers passed to `m_socket->Send`, oldest first -/
  sent : List Nat

/-- Constructor followed by `Setup`. -/
def SelectiveSender.Setup (packetSize totalPackets windowSize : Nat) : SelectiveSender :=
  { m_packetSize := packetSize, m_totalPackets := totalPackets, m_windowSize := windowSize,
    m_timers := fun _ => none, m_ackedPackets := ∅, m_base := 0, sent := [] }

/-- Method `SelectiveSender::SendPacket`: send `seq` and store a fresh timer under `seq`. -/
def SelectiveSender.SendPacket (s : SelectiveSender) (seq : Nat) : SelectiveSender :=
  { s with sent := s.sent ++ [seq], m_timers := Function.update s.m_timers seq (some true) }

/-- The `for` loop of `SendWindow` with loop variable `i`, at most `fuel` iterations. -/
def SelectiveSender.sendLoop : Nat → Nat → SelectiveSender → SelectiveSender
  | 0, _, s => s
  | fuel + 1, i, s =>
    if i < u32add s.m_base s.m_windowSize ∧ i < s.m_totalPackets then
      SelectiveSender.sendLoop fuel (u32add i 1)
        (if i ∉ s.m_ackedPackets ∧ s.m_timers i = none then s.SendPacket i else s)
    else s

/-- Method `SelectiveSender::SendWindow`. -/
def SelectiveSender.SendWindow (s : SelectiveSender) : SelectiveSender :=
  SelectiveSender.sendLoop (s.m_totalPackets - s.m_base) s.m_base s

/-- Method `SelectiveSender::StartApplication`. -/
def SelectiveSender.StartApplication (s : SelectiveSender) : SelectiveSender :=
  s.SendWindow

/-- Method `SelectiveSender::Timeout` (the body of the callback). -/
def SelectiveSender.Timeout (s : SelectiveSender) (seq : Nat) : SelectiveSender :=
  if seq ∉ s.m_ackedPackets then s.SendPacket seq else s

/-- The scheduler fires the timer stored under `seq`: the stored event stops running and
`Timeout seq` executes. -/
def SelectiveSender.fireTimeout (s : SelectiveSender) (seq : Nat) : SelectiveSender :=
  SelectiveSender.Timeout { s with m_timers := Function.update s.m_timers seq (some false) } seq

/-- The loop `while (m_ackedPackets.find(m_base) != end) m_base++`, started at `b`.
`none` when the exit test is not reached within `fuel` iterations. -/
def SelectiveSender.advanceBase (acked : Finset Nat) : Nat → Nat → Option Nat
  | 0, _ => none
  | fuel + 1, b =>
    if b ∈ acked then SelectiveSender.advanceBase acked fuel (u32add b 1) else some b

/-- Method `SelectiveSender::HandleAck` on a packet whose header carries `ackSeq`.  The `while` loop
gets `2^32` iterations, after which `m_base` has visited every `uint32_t` value: the result is
`none` exactly when the loop of the source does not terminate. -/
def SelectiveSender.HandleAck (s : SelectiveSender) (ackSeq : Nat) : Option SelectiveSender :=
  let s1 : SelectiveSender := { s with m_ackedPackets := insert ackSeq s.m_ackedPackets }
  let s2 : SelectiveSender :=
    if s1.m_timers ackSeq ≠ none then
      { s1 with m_timers := Function.update s1.m_timers ackSeq none }
    else s1
  (SelectiveSender.advanceBase s2.m_ackedPackets 4294967296 s2.m_base).map
    fun b => SelectiveSender.SendWindow { s2 with m_base := b }

/-- What can happen to a running Selective-Repeat sender. -/
inductive SrEvent where
  | timeout : Nat → SrEvent
  | ack : Nat → SrEvent
  deriving DecidableEq

/-- One event applied to the sender: a timer fires only while it runs; `none` when the event
cannot occur or `HandleAck` does not return. -/
def SelectiveSender.step (s : SelectiveSender) : SrEvent → Option SelectiveSender
  | SrEvent.timeout seq => if s.m_timers seq = some true then some (s.fireTimeout seq) else none
  | SrEvent.ack a => s.HandleAck a

/-- Run a list of events from `s`. -/
def SelectiveSender.run : SelectiveSender → List SrEvent → Option SelectiveSender
  | s, [] => some s
  | s, e :: es => (s.step e).bind fun s1 => SelectiveSender.run s1 es

/-- State of `SelectiveReceiver`: the class keeps the socket and the random stream only. -/
structure SelectiveReceiver where
  /-- Sequence numbers of the acks passed to `socket->Send`, oldest first -/
  sent : List Nat
  deriving DecidableEq

/-- The `double` constant `0.1` of the loss test, as the rational it denotes
(`0x3FB999999999999A`). -/
def SelectiveReceiver.lossThreshold : ℚ := 3602879701896397 / 36028797018963968

/-- Method `SelectiveReceiver::HandleRead` on a packet whose header carries `seq`; `draw` is the value
returned by `m_rand->GetValue(0, 1)` for this packet. -/
def SelectiveReceiver.HandleRead (r : SelectiveReceiver) (draw : ℚ) (seq : Nat) :
    SelectiveReceiver :=
  if draw < SelectiveReceiver.lossThreshold then r else { r with sent := r.sent ++ [seq] }

/-! ## Stop-and-Wait (`stop_wait.cc`) -/

/-- The four bytes of a `uint32_t` in memory (least significant first), as copied by
`Create<Packet>((uint8_t*)&seq, sizeof(seq))`. -/
def encodeU32 (n : Nat) : List Nat :=
  [n % 256, n / 256 % 256, n / 65536 % 256, n / 16777216 % 256]

/-- The `uint32_t` read by `CopyData((uint8_t*)&x, sizeof(x))` from the first four bytes. -/
def decodeU32 (p : List Nat) : Nat :=
  p.getD 0 0 % 256 + 256 * (p.getD 1 0 % 256) + 65536 * (p.getD 2 0 % 256)
    + 16777216 * (p.getD 3 0 % 256)

/-- The bytes of the payload string `"DATA"`. -/
def payloadDATA : List Nat := [68, 65, 84, 65]

/-- State of `SWSender`.  `pendingSend` lists the delays of the `SendNewPacket` events that
were scheduled and have not run yet. -/
structure SWSender where
  m_seq : Nat
  m_seqCount : Nat
  m_totalPackets : Nat
  m_waitingAck : Bool
  /-- Result of `m_retxEvent.IsRunning()`. -/
  m_retxEvent : Bool
  m_timeout : Nat
  m_interPacket : Nat
  pendingSend : List Nat
  /-- Packets (byte lists) passed to `m_socket->SendTo`, oldest first -/
  sent : List (List Nat)
  deriving DecidableEq

/-- Constructor followed by `Setup`. -/
def SWSender.Setup (timeout totalPackets interPacket : Nat) : SWSender :=
  { m_seq := 0, m_seqCount := 0, m_totalPackets := totalPackets, m_waitingAck := false,
    m_retxEvent := false, m_timeout := timeout, m_interPacket := interPacket,
    pendingSend := [], sent := [] }

/-- Method `SWSender::SendNewPacket`. -/
def SWSender.SendNewPacket (s : SWSender) : SWSender :=
  if s.m_totalPackets ≤ s.m_seqCount then s
  else if s.m_waitingAck then s
  else
    { s with sent := s.sent ++ [encodeU32 s.m_seq ++ payloadDATA], m_waitingAck := true,
             m_retxEvent := true }

/-- Method `SWSender::StartApplication`. -/
def SWSender.StartApplication (s : SWSender) : SWSender :=
  s.SendNewPacket

/-- Method `SWSender::Timeout` (the body of the callback). -/
def SWSender.Timeout (s : SWSender) : SWSender :=
  { s with sent := s.sent ++ [encodeU32 s.m_seq ++ payloadDATA], m_retxEvent := true }

/-- The scheduler fires `m_retxEvent`. -/
def SWSender.fireTimeout (s : SWSender) : SWSender :=
  SWSender.Timeout { s with m_retxEvent := false }

/-- The scheduler runs the oldest pending `SendNewPacket` event. -/
def SWSender.fireSendNewPacket (s : SWSender) : SWSender :=
  SWSender.SendNewPacket { s with pendingSend := s.pendingSend.tail }

/-- Method `SWSender::HandleRead` on a received packet. -/
def SWSender.HandleRead (s : SWSender) (packet : List Nat) : SWSender :=
  if packet.length < 4 then s
  else
    let ackSeq := decodeU32 packet
    if ackSeq = s.m_seq ∧ s.m_waitingAck = true then
      { s with m_waitingAck := false, m_seqCount := u32add s.m_seqCount 1,
               m_seq := u32sub 1 s.m_seq, m_retxEvent := false,
               pendingSend := s.pendingSend ++ [s.m_interPacket] }
    else s

/-- State of `SWReceiver`. -/
structure SWReceiver where
  m_expectedSeq : Nat
  /-- Ack packets (byte lists) passed to `m_ackSocket->SendTo`, oldest first -/
  sent : List (List Nat)
  deriving DecidableEq

/-- Method `SWReceiver::SendAck`. -/
def SWReceiver.SendAck (r : SWReceiver) (seq : Nat) : SWReceiver :=
  { r with sent := r.sent ++ [encodeU32 seq] }

/-- Method `SWReceiver::HandleRead` on a received packet. -/
def SWReceiver.HandleRead (r : SWReceiver) (packet : List Nat) : SWReceiver :=
  if packet.length < 4 then r
  else
    let seqnum := decodeU32 packet
    if seqnum = r.m_expectedSeq then
      let r1 := r.SendAck seqnum
      { r1 with m_expectedSeq := u32sub 1 r1.m_expectedSeq }
    else
      let lastAck := u32sub 1 r.m_expectedSeq
      r.SendAck lastAck

/-! ## Invariants -/

/-- Timer invariant of the Go-Back-N sender, for configured sizes `n` and `w`. -/
def GoBackNSender.TimerInv (n w : Nat) (s : GoBackNSender) : Prop :=
  s.m_totalPackets = n ∧ s.m_windowSize = w ∧ s.m_base ≤ s.m_nextSeq ∧ s.m_nextSeq ≤ n ∧
  (s.m_timeoutEvent = true ↔ s.m_base ≠ s.m_nextSeq)

/-- Invariant of the Selective-Repeat sender: `m_base` is a `uint32_t`, everything below
`m_base` is acknowledged and `m_base` is not; every timer entry runs and belongs to a sequence
number of the window that was sent and is not acknowledged; every sent and unacknowledged
sequence number has a timer entry. -/
def SelectiveSender.Inv (s : SelectiveSender) : Prop :=
  s.m_base < 4294967296 ∧
  (∀ n, n < s.m_base → n ∈ s.m_ackedPackets) ∧
  s.m_base ∉ s.m_ackedPackets ∧
  (∀ k, s.m_timers k ≠ none →
    s.m_timers k = some true ∧ k ∉ s.m_ackedPackets ∧ s.m_base ≤ k ∧
    k < s.m_base + s.m_windowSize ∧ k ∈ s.sent) ∧
  (∀ k, k ∈ s.sent → k ∉ s.m_ackedPackets → s.m_timers k ≠ none)

/-! ## Runs of the Stop-and-Wait sender -/

/-- What can happen to a running Stop-and-Wait sender: a packet arrives on the ack socket, the
retransmission timer fires, or a scheduled `SendNewPacket` runs. -/
inductive SwEvent where
  | read : List Nat → SwEvent
  | timeout : SwEvent
  | sendNew : SwEvent
  deriving DecidableEq

/-- One event applied to the sender; `none` when the event cannot occur (the timer is not
running, no `SendNewPacket` is pending). -/
def SWSender.step (s : SWSender) : SwEvent → Option SWSender
  | SwEvent.read p => some (s.HandleRead p)
  | SwEvent.timeout => if s.m_retxEvent then some s.fireTimeout else none
  | SwEvent.sendNew => if s.pendingSend = [] then none else some s.fireSendNewPacket

/-- Run a list of events from `s`. -/
def SWSender.run : SWSender → List SwEvent → Option SWSender
  | s, [] => some s
  | s, e :: es => (s.step e).bind fun s1 => SWSender.run s1 es

/-- Invariant of the Stop-and-Wait sender. -/
def SWSender.Inv (s : SWSender) : Prop :=
  (s.m_retxEvent = s.m_waitingAck) ∧
  (s.m_seq = 0 ∨ s.m_seq = 1) ∧
  (s.m_waitingAck = true → s.pendingSend = []) ∧
  s.pendingSend.length ≤ 1 ∧
  (s.m_waitingAck = true → s.sent.getLast? = some (encodeU32 s.m_seq ++ payloadDATA))

/-! ## Further guards and invariants of the Go-Back-N sender -/

/-- Any timeout, and any ack that names a sequence number already sent. -/
def GoBackNSender.ackSent (s : GoBackNSender) : GbnEvent → Bool
  | GbnEvent.timeout => true
  | GbnEvent.ack a => decide (a < s.m_nextSeq)

/-- Every event, with every ack value. -/
def GoBackNSender.anyEvent (_ : GoBackNSender) (_ : GbnEvent) : Bool := true

/-- The window is filled: `m_nextSeq` is the smaller of `m_base + w` and `n`. -/
def GoBackNSender.WindowInv (n w : Nat) (s : GoBackNSender) : Prop :=
  s.m_totalPackets = n ∧ s.m_windowSize = w ∧ s.m_base ≤ s.m_nextSeq ∧ s.m_nextSeq ≤ n ∧
  s.m_nextSeq ≤ s.m_base + w ∧ (s.m_nextSeq = s.m_base + w ∨ s.m_nextSeq = n)

/-- Nothing is left to send: when `m_base < m_totalPackets` the guard of the `SendWindow` loop
is false. -/
def GoBackNSender.Settled (s : GoBackNSender) : Prop :=
  s.m_base < s.m_totalPackets → ¬ s.canSend

/-- Every sequence number that passes the test of the `SendWindow` loop is acknowledged or has
a timer entry. -/
def SelectiveSender.WindowSent (s : SelectiveSender) : Prop :=
  ∀ k, s.m_base ≤ k → k < u32add s.m_base s.m_windowSize → k < s.m_totalPackets →
    k ∈ s.m_ackedPackets ∨ s.m_timers k ≠ none

/-! ## The Go-Back-N sender and receiver joined by a channel

The channel is represented by the two send logs.  A data packet that the channel may still
deliver is an entry of the sender's log, an ack an entry of the receiver's log: the channel
delivers only what was sent (it never invents a message), it may deliver an entry late, more
than once, or never. -/

/-- A Go-Back-N sender and receiver. -/
structure GbnSystem where
  sender : GoBackNSender
  receiver : GoBackNReceiver
  deriving DecidableEq

/-- Events of the joined system: the sender's timer fires, the channel delivers the `i`-th
packet the sender sent, the channel delivers the `j`-th ack the receiver sent. -/
inductive GbnSysEvent where
  | timeout : GbnSysEvent
  | data : Nat → GbnSysEvent
  | ack : Nat → GbnSysEvent
  deriving DecidableEq

/-- Constructors, `Setup` and `StartApplication` of both applications. -/
def GbnSystem.start (totalPackets windowSize : Nat) : GbnSystem :=
  { sender := (GoBackNSender.Setup totalPackets windowSize).StartApplication,
    receiver := { m_expected := 0, sent := [] } }

/-- One event of the joined system; `none` when the event cannot occur (the timer is not
running, the message was never sent). -/
def GbnSystem.step (y : GbnSystem) : GbnSysEvent → Option GbnSystem
  | GbnSysEvent.timeout =>
    if y.sender.m_timeoutEvent then some { y with sender := y.sender.fireTimeout } else none
  | GbnSysEvent.data i =>
    (y.sender.sent.get? i).map fun seq => { y with receiver := y.receiver.HandleRead seq }
  | GbnSysEvent.ack j =>
    (y.receiver.sent.get? j).map fun a => { y with sender := y.sender.HandleAck a }

/-- Run a list of events from `y`. -/
def GbnSystem.run : GbnSystem → List GbnSysEvent → Option GbnSystem
  | y, [] => some y
  | y, e :: es => (y.step e).bind fun y1 => GbnSystem.run y1 es

/-- Invariant of the joined system for `n` packets: the sender sent only sequence numbers
below `n`, the receiver expects at most `n`, every ack the receiver sent acknowledges at most
what the receiver accepted, and `m_base` is at most `m_expected`. -/
def GbnSystem.Inv (n : Nat) (y : GbnSystem) : Prop :=
  y.sender.m_totalPackets = n ∧
  (∀ k, k ∈ y.sender.sent → k < n) ∧
  y.receiver.m_expected ≤ n ∧
  (∀ a, a ∈ y.receiver.sent → u32add a 1 ≤ y.receiver.m_expected) ∧
  y.sender.m_base ≤ y.receiver.m_expected

/-! ## The loss-free run of Go-Back-N

In a loss-free run the channel delivers every data packet and every ack exactly once and in
the order of sending, and no timer fires.  The state records how many entries of each send log
were delivered; a schedule says, step by step, whether the next data packet (`true`) or the
next ack (`false`) is delivered. -/

/-- The joined system with the number of data packets and of acks delivered so far. -/
structure GbnFifo where
  sys : GbnSystem
  dataDelivered : Nat
  acksDelivered : Nat
  deriving DecidableEq

/-- Both applications started, nothing delivered. -/
def GbnFifo.start (totalPackets windowSize : Nat) : GbnFifo :=
  { sys := GbnSystem.start totalPackets windowSize, dataDelivered := 0, acksDelivered := 0 }

/-- Deliver the oldest undelivered data packet; `none` when there is none. -/
def GbnFifo.deliverData (f : GbnFifo) : Option GbnFifo :=
  (f.sys.step (GbnSysEvent.data f.dataDelivered)).map
    fun y => { f with sys := y, dataDelivered := f.dataDelivered + 1 }

/-- Deliver the oldest undelivered ack; `none` when there is none. -/
def GbnFifo.deliverAck (f : GbnFifo) : Option GbnFifo :=
  (f.sys.step (GbnSysEvent.ack f.acksDelivered)).map
    fun y => { f with sys := y, acksDelivered := f.acksDelivered + 1 }

/-- Run a schedule of deliveries. -/
def GbnFifo.run : GbnFifo → List Bool → Option GbnFifo
  | f, [] => some f
  | f, true :: r => f.deliverData.bind fun g => GbnFifo.run g r
  | f, false :: r => f.deliverAck.bind fun g => GbnFifo.run g r

/-- Nothing is in flight: every data packet and every ack sent was delivered. -/
def GbnFifo.quiescent (f : GbnFifo) : Prop :=
  f.dataDelivered = f.sys.sender.sent.length ∧ f.acksDelivered = f.sys.receiver.sent.length

/-- Deliver, at most `fuel` times, a data packet if one is in flight and otherwise an ack if
one is in flight; stop when nothing is in flight. -/
def GbnFifo.drain : Nat → GbnFifo → GbnFifo
  | 0, f => f
  | fuel + 1, f =>
    match f.deliverData with
    | some g => GbnFifo.drain fuel g
    | none =>
      match f.deliverAck with
      | some g => GbnFifo.drain fuel g
      | none => f

/-- Invariant of the loss-free run for `n` packets and window `w`. -/
def GbnFifo.Inv (n w : Nat) (f : GbnFifo) : Prop :=
  f.sys.sender.m_totalPackets = n ∧ f.sys.sender.m_windowSize = w ∧
  f.sys.sender.sent = List.range f.sys.sender.m_nextSeq ∧
  f.sys.receiver.m_expected = f.dataDelivered ∧
  f.sys.receiver.sent = List.range f.dataDelivered ∧
  f.sys.sender.m_base = f.acksDelivered ∧
  f.acksDelivered ≤ f.dataDelivered ∧
  f.dataDelivered ≤ f.sys.sender.m_nextSeq ∧
  f.sys.sender.m_nextSeq ≤ n ∧
  f.sys.sender.m_nextSeq ≤ f.acksDelivered + w ∧
  (f.sys.sender.m_nextSeq = f.acksDelivered + w ∨ f.sys.sender.m_nextSeq = n) ∧
  (f.sys.sender.m_timeoutEvent = true ↔ f.acksDelivered ≠ n)

/-! # Theorems -/

/-! ## Go-Back-N: lemmas -/

theorem GoBackNSender.gbn_sendLoop_frame (fuel : Nat) (s : GoBackNSender) :
    (GoBackNSender.sendLoop fuel s).m_totalPackets = s.m_totalPackets ∧
    (GoBackNSender.sendLoop fuel s).m_windowSize = s.m_windowSize ∧
    (GoBackNSender.sendLoop fuel s).m_base = s.m_base ∧
    (GoBackNSender.sendLoop fuel s).m_timeoutEvent = s.m_timeoutEvent := by
  induction fuel generalizing s with
  | zero => simp [GoBackNSender.sendLoop]
  | succ n ih =>
    simp only [GoBackNSender.sendLoop]
    split_ifs with h
    · have := ih { s with sent := s.sent ++ [s.m_nextSeq], m_nextSeq := u32add s.m_nextSeq 1 }
      simpa using this
    · simp

theorem GoBackNSender.sendLoop_window (fuel : Nat) (s : GoBackNSender)
    (h : s.m_nextSeq ≤ s.m_base + s.m_windowSize) :
    (GoBackNSender.sendLoop fuel s).m_nextSeq ≤ s.m_base + s.m_windowSize := by
  induction fuel generalizing s with
  | zero => simpa [GoBackNSender.sendLoop] using h
  | succ n ih =>
    simp only [GoBackNSender.sendLoop]
    split_ifs with hc
    · have := ih { s with sent := s.sent ++ [s.m_nextSeq], m_nextSeq := u32add s.m_nextSeq 1 }
      simp only [GoBackNSender.canSend, u32add] at hc this ⊢
      apply this
      omega
    · exact h

/-- The fuel given by `SendWindow` lets the `while` loop reach its exit test: the loop guard is
false in the state returned. -/
theorem GoBackNSender.sendLoop_exit (fuel : Nat) (s : GoBackNSender)
    (hf : s.m_totalPackets - s.m_nextSeq ≤ fuel) :
    ¬ (GoBackNSender.sendLoop fuel s).canSend ∧
    s.m_nextSeq ≤ (GoBackNSender.sendLoop fuel s).m_nextSeq ∧
    ((GoBackNSender.sendLoop fuel s).m_nextSeq ≤ s.m_totalPackets ∨
      (GoBackNSender.sendLoop fuel s).m_nextSeq = s.m_nextSeq) ∧
    (s.canSend → s.m_nextSeq < (GoBackNSender.sendLoop fuel s).m_nextSeq) := by
  induction fuel generalizing s with
  | zero =>
    simp only [GoBackNSender.sendLoop, GoBackNSender.canSend]
    refine ⟨by omega, le_refl _, Or.inr trivial, by omega⟩
  | succ n ih =>
    simp only [GoBackNSender.sendLoop]
    split_ifs with hc
    · have := ih { s with sent := s.sent ++ [s.m_nextSeq], m_nextSeq := u32add s.m_nextSeq 1 }
      simp only [GoBackNSender.canSend, u32add] at hc this ⊢
      obtain ⟨h1, h2, h3, -⟩ := this (by omega)
      refine ⟨h1, by omega, by omega, fun _ => by omega⟩
    · refine ⟨hc, le_refl _, Or.inr rfl, fun h => absurd h hc⟩

theorem GoBackNSender.run_invariant (guard : GoBackNSender → GbnEvent → Bool)
    (P : GoBackNSender → Prop)
    (hstep : ∀ s e, guard s e = true → P s → P (s.step e)) :
    ∀ (evs : List GbnEvent) (s t : GoBackNSender),
      P s → GoBackNSender.run guard s evs = some t → P t := by
  intro evs
  induction evs with
  | nil =>
    intro s t hs h
    simp only [GoBackNSender.run, Option.some.injEq] at h
    exact h ▸ hs
  | cons e es ih =>
    intro s t hs h
    simp only [GoBackNSender.run] at h
    split_ifs at h with hg
    exact ih _ _ (hstep s e hg hs) h

theorem GoBackNSender.SendWindow_frame (s : GoBackNSender) :
    s.SendWindow.m_totalPackets = s.m_totalPackets ∧
    s.SendWindow.m_windowSize = s.m_windowSize ∧
    s.SendWindow.m_base = s.m_base ∧
    s.SendWindow.m_nextSeq = (GoBackNSender.sendLoop (s.m_totalPackets - s.m_nextSeq) s).m_nextSeq ∧
    s.SendWindow.m_timeoutEvent = true := by
  have hf := GoBackNSender.gbn_sendLoop_frame (s.m_totalPackets - s.m_nextSeq) s
  simp only [GoBackNSender.SendWindow]
  split_ifs with h
  · exact ⟨hf.1, hf.2.1, hf.2.2.1, rfl, h⟩
  · exact ⟨hf.1, hf.2.1, hf.2.2.1, rfl, rfl⟩

theorem GoBackNSender.SendWindow_window (s : GoBackNSender)
    (h : s.m_nextSeq ≤ s.m_base + s.m_windowSize) :
    s.SendWindow.m_nextSeq ≤ s.SendWindow.m_base + s.SendWindow.m_windowSize := by
  obtain ⟨-, h2, h3, h4, -⟩ := GoBackNSender.SendWindow_frame s
  rw [h2, h3, h4]
  exact GoBackNSender.sendLoop_window _ s h

theorem GoBackNSender.step_window (s : GoBackNSender) (e : GbnEvent)
    (hg : GoBackNSender.ackNoOverflow s e = true)
    (h : s.m_nextSeq ≤ s.m_base + s.m_windowSize) :
    (s.step e).m_windowSize = s.m_windowSize ∧
    (s.step e).m_nextSeq ≤ (s.step e).m_base + (s.step e).m_windowSize := by
  cases e with
  | timeout =>
    simp only [GoBackNSender.step, GoBackNSender.fireTimeout, GoBackNSender.Timeout]
    refine ⟨(GoBackNSender.SendWindow_frame _).2.1, GoBackNSender.SendWindow_window _ ?_⟩
    simp
  | ack a =>
    simp only [GoBackNSender.ackNoOverflow, decide_eq_true_eq] at hg
    simp only [GoBackNSender.step, GoBackNSender.HandleAck, u32add]
    have ha : (a + 1) % 4294967296 = a + 1 := Nat.mod_eq_of_lt hg
    rw [ha]
    split_ifs with h1 h2 h3 h4 h5
    · refine ⟨(GoBackNSender.SendWindow_frame _).2.1, GoBackNSender.SendWindow_window _ ?_⟩
      dsimp only; omega
    · exact ⟨rfl, by dsimp only; omega⟩
    · refine ⟨(GoBackNSender.SendWindow_frame _).2.1, GoBackNSender.SendWindow_window _ ?_⟩
      dsimp only; omega
    · exact ⟨rfl, by dsimp only; omega⟩
    · exact ⟨(GoBackNSender.SendWindow_frame _).2.1, GoBackNSender.SendWindow_window _ h⟩
    · exact ⟨rfl, h⟩

/-- C1. Go-Back-N window bound.  In every state reached from `StartApplication` by timeouts
and by acks whose increment does not overflow `uint32_t`, the window size is the configured
one and `m_nextSeq ≤ m_base + m_windowSize`; read over the integers,
`m_nextSeq - m_base ≤ m_windowSize`. -/
theorem GoBackNSender.gbn_window_bound (totalPackets windowSize : Nat) (evs : List GbnEvent)
    (s : GoBackNSender)
    (h : GoBackNSender.run GoBackNSender.ackNoOverflow
      (GoBackNSender.Setup totalPackets windowSize).StartApplication evs = some s) :
    s.m_windowSize = windowSize ∧
    s.m_nextSeq ≤ s.m_base + s.m_windowSize ∧
    (s.m_nextSeq : Int) - (s.m_base : Int) ≤ (s.m_windowSize : Int) := by
  have key : s.m_windowSize = windowSize ∧ s.m_nextSeq ≤ s.m_base + s.m_windowSize := by
    refine GoBackNSender.run_invariant GoBackNSender.ackNoOverflow
      (fun t => t.m_windowSize = windowSize ∧ t.m_nextSeq ≤ t.m_base + t.m_windowSize)
      ?_ evs _ s ?_ h
    · intro t e hg ht
      have := GoBackNSender.step_window t e hg ht.2
      exact ⟨this.1.trans ht.1, this.2⟩
    · refine ⟨(GoBackNSender.SendWindow_frame _).2.1, GoBackNSender.SendWindow_window _ ?_⟩
      simp [GoBackNSender.Setup]
  refine ⟨key.1, key.2, ?_⟩
  have := key.2
  omega

/-- Witness for C1: ten packets, window four, the events ack 0, timeout, ack 3, ack 2. -/
theorem GoBackNSender.gbn_window_bound_witness :
    GoBackNSender.run GoBackNSender.ackNoOverflow (GoBackNSender.Setup 10 4).StartApplication
        [GbnEvent.ack 0, GbnEvent.timeout, GbnEvent.ack 3, GbnEvent.ack 2]
      = some ⟨10, 4, 4, 8, true, [0, 1, 2, 3, 4, 1, 2, 3, 4, 5, 6, 7]⟩ ∧
    (8 : Nat) ≤ 4 + 4 :=
  ⟨by decide,
   (GoBackNSender.gbn_window_bound 10 4
      [GbnEvent.ack 0, GbnEvent.timeout, GbnEvent.ack 3, GbnEvent.ack 2]
      ⟨10, 4, 4, 8, true, [0, 1, 2, 3, 4, 1, 2, 3, 4, 5, 6, 7]⟩ (by decide)).2.1⟩

theorem GoBackNSender.step_base_mono (s : GoBackNSender) (e : GbnEvent)
    (hg : GoBackNSender.ackNoOverflow s e = true) : s.m_base ≤ (s.step e).m_base := by
  cases e with
  | timeout =>
    simp only [GoBackNSender.step, GoBackNSender.fireTimeout, GoBackNSender.Timeout]
    rw [(GoBackNSender.SendWindow_frame _).2.2.1]
  | ack a =>
    simp only [GoBackNSender.ackNoOverflow, decide_eq_true_eq] at hg
    simp only [GoBackNSender.step, GoBackNSender.HandleAck, u32add]
    have ha : (a + 1) % 4294967296 = a + 1 := Nat.mod_eq_of_lt hg
    rw [ha]
    split_ifs with h1 h2 h3 h4 h5
    · rw [(GoBackNSender.SendWindow_frame _).2.2.1]; dsimp only; omega
    · dsimp only; omega
    · rw [(GoBackNSender.SendWindow_frame _).2.2.1]; dsimp only; omega
    · dsimp only; omega
    · rw [(GoBackNSender.SendWindow_frame _).2.2.1]
    · exact le_refl _

/-- C3. Go-Back-N cumulative acknowledgment.  For an ack `A` whose increment does not overflow
`uint32_t`, `HandleAck` sets `m_base` to `A + 1` when `A ≥ m_base` and keeps `m_base` when
`A < m_base`; so `m_base` does not decrease in `HandleAck`, nor along any run of timeouts and
such acks. -/
theorem GoBackNSender.HandleAck_cumulative (s : GoBackNSender) (A : Nat)
    (hA : A + 1 < 4294967296) :
    (s.m_base ≤ A → (s.HandleAck A).m_base = A + 1) ∧
    (A < s.m_base → (s.HandleAck A).m_base = s.m_base) ∧
    s.m_base ≤ (s.HandleAck A).m_base ∧
    (∀ (evs : List GbnEvent) (t : GoBackNSender),
      GoBackNSender.run GoBackNSender.ackNoOverflow s evs = some t → s.m_base ≤ t.m_base) := by
  have ha : (A + 1) % 4294967296 = A + 1 := Nat.mod_eq_of_lt hA
  refine ⟨?_, ?_, ?_, ?_⟩
  · intro h
    simp only [GoBackNSender.HandleAck, u32add, ha, if_pos h]
    split_ifs <;> first | rfl | rw [(GoBackNSender.SendWindow_frame _).2.2.1]
  · intro h
    have h' : ¬ s.m_base ≤ A := by omega
    simp only [GoBackNSender.HandleAck, if_neg h']
    split_ifs <;> first | rfl | rw [(GoBackNSender.SendWindow_frame _).2.2.1]
  · exact GoBackNSender.step_base_mono s (GbnEvent.ack A)
      (by simpa [GoBackNSender.ackNoOverflow] using hA)
  · intro evs t h
    exact GoBackNSender.run_invariant GoBackNSender.ackNoOverflow (fun u => s.m_base ≤ u.m_base)
      (fun u e hg hu => le_trans hu (GoBackNSender.step_base_mono u e hg)) evs s t (le_refl _) h

/-- Witness for C3: base 2, four packets outstanding, ack 3 arrives. -/
theorem GoBackNSender.HandleAck_cumulative_witness :
    (3 : Nat) + 1 < 4294967296 ∧
    ((⟨10, 4, 2, 6, true, []⟩ : GoBackNSender).HandleAck 3).m_base = 3 + 1 :=
  ⟨by decide, (GoBackNSender.HandleAck_cumulative ⟨10, 4, 2, 6, true, []⟩ 3 (by decide)).1
    (by decide)⟩

/-- C5. Go-Back-N receiver acceptance policy.  With `1 ≤ m_expected`, `HandleRead` increments
`m_expected` (a `uint32_t` increment) exactly when `seq = m_expected` and otherwise keeps it;
in both cases it appends one ack to the send log, carrying the new `m_expected` minus one
(`uint32_t` subtraction): the accepted `seq` on a match, the old `m_expected - 1` on a
mismatch. -/
theorem GoBackNReceiver.gbn_HandleRead_policy (r : GoBackNReceiver) (seq : Nat)
    (h1 : 1 ≤ r.m_expected) (h2 : r.m_expected < 4294967296) :
    ((r.HandleRead seq).m_expected = u32add r.m_expected 1 ↔ seq = r.m_expected) ∧
    (seq ≠ r.m_expected → (r.HandleRead seq).m_expected = r.m_expected) ∧
    (seq = r.m_expected → r.m_expected + 1 < 4294967296 →
      (r.HandleRead seq).m_expected = r.m_expected + 1) ∧
    (r.HandleRead seq).sent = r.sent ++ [u32sub (r.HandleRead seq).m_expected 1] ∧
    (seq = r.m_expected → (r.HandleRead seq).sent = r.sent ++ [seq]) ∧
    (seq ≠ r.m_expected → (r.HandleRead seq).sent = r.sent ++ [r.m_expected - 1]) := by
  have hadd : u32add r.m_expected 1 ≠ r.m_expected := by
    simp only [u32add]; omega
  have hrt : r.m_expected + 1 < 4294967296 → u32add r.m_expected 1 = r.m_expected + 1 := by
    intro h; simp only [u32add]; omega
  have hsub1 : u32sub (u32add r.m_expected 1) 1 = r.m_expected := by
    simp only [u32add, u32sub]; omega
  have hsub2 : u32sub r.m_expected 1 = r.m_expected - 1 := by
    simp only [u32sub]; omega
  by_cases h : seq = r.m_expected
  · have e : r.HandleRead seq
        = ⟨u32add r.m_expected 1, r.sent ++ [u32sub (u32add r.m_expected 1) 1]⟩ := by
      simp [GoBackNReceiver.HandleRead, h]
    rw [e]
    refine ⟨⟨fun _ => h, fun _ => rfl⟩, fun hn => absurd h hn, fun _ hlt => hrt hlt, rfl,
      fun _ => ?_, fun hn => absurd h hn⟩
    dsimp only
    rw [hsub1, h]
  · have e : r.HandleRead seq = ⟨r.m_expected, r.sent ++ [u32sub r.m_expected 1]⟩ := by
      simp [GoBackNReceiver.HandleRead, h]
    rw [e]
    refine ⟨⟨fun h3 => absurd h3.symm hadd, fun h3 => absurd h3 h⟩, fun _ => rfl,
      fun h3 => absurd h3 h, rfl, fun h3 => absurd h3 h, fun _ => ?_⟩
    dsimp only
    rw [hsub2]

/-- Witness for C5: the receiver expects 3 and receives 5. -/
theorem GoBackNReceiver.gbn_HandleRead_policy_witness :
    ((⟨3, [0, 1, 2]⟩ : GoBackNReceiver).HandleRead 5).sent = [0, 1, 2] ++ [3 - 1] :=
  (GoBackNReceiver.gbn_HandleRead_policy ⟨3, [0, 1, 2]⟩ 5 (by decide) (by decide)).2.2.2.2.2
    (by decide)

theorem GoBackNSender.SendWindow_armed (n w : Nat) (s : GoBackNSender)
    (hw : 1 ≤ w) (hsum : n + w ≤ 4294967296)
    (hn : s.m_totalPackets = n) (hws : s.m_windowSize = w)
    (hb : s.m_base ≤ s.m_nextSeq) (hle : s.m_nextSeq ≤ n) (hlt : s.m_base < n) :
    GoBackNSender.TimerInv n w s.SendWindow := by
  obtain ⟨f1, f2, f3, f4, f5⟩ := GoBackNSender.SendWindow_frame s
  obtain ⟨g1, g2, g3, g4⟩ := GoBackNSender.gbn_sendLoop_frame (s.m_totalPackets - s.m_nextSeq) s
  obtain ⟨x1, x2, x3, -⟩ := GoBackNSender.sendLoop_exit (s.m_totalPackets - s.m_nextSeq) s
    (le_refl _)
  simp only [GoBackNSender.canSend, u32add, g1, g2, g3] at x1
  refine ⟨f1.trans hn, f2.trans hws, ?_, ?_, ?_⟩
  · rw [f3, f4]; omega
  · rw [f4]; omega
  · rw [f3, f4, f5]
    simp only [true_iff]
    omega

theorem GoBackNSender.step_timer (n w : Nat) (hw : 1 ≤ w) (hsum : n + w ≤ 4294967296)
    (s : GoBackNSender) (e : GbnEvent) (hg : GoBackNSender.liveAndSent s e = true)
    (h : GoBackNSender.TimerInv n w s) : GoBackNSender.TimerInv n w (s.step e) := by
  obtain ⟨hn, hws, hb, hle, ht⟩ := h
  cases e with
  | timeout =>
    simp only [GoBackNSender.liveAndSent] at hg
    have hne := ht.1 hg
    simp only [GoBackNSender.step, GoBackNSender.fireTimeout, GoBackNSender.Timeout]
    exact GoBackNSender.SendWindow_armed n w _ hw hsum hn hws (le_refl _)
      (by dsimp only; omega) (by dsimp only; omega)
  | ack a =>
    simp only [GoBackNSender.liveAndSent, decide_eq_true_eq] at hg
    simp only [GoBackNSender.step, GoBackNSender.HandleAck, u32add]
    have ha : (a + 1) % 4294967296 = a + 1 := Nat.mod_eq_of_lt (by omega)
    rw [ha]
    split_ifs with h1 h2 h3 h4 h5
    · exact GoBackNSender.SendWindow_armed n w _ hw hsum hn hws (by dsimp only; omega)
        hle (by dsimp only at h3 ⊢; omega)
    · exact ⟨hn, hws, by dsimp only; omega, hle, by simp [h2]⟩
    · exact GoBackNSender.SendWindow_armed n w _ hw hsum hn hws (by dsimp only; omega)
        hle (by dsimp only at h4 ⊢; omega)
    · dsimp only at h4
      omega
    · exact GoBackNSender.SendWindow_armed n w _ hw hsum hn hws hb hle (by omega)
    · exact ⟨hn, hws, hb, hle, ht⟩

/-- C9, as stated, fails.  With `totalPackets = 10` and `windowSize = 4294967295` the sum
`m_base + m_windowSize` wraps to 0 once `m_base = 1`: after ack 0 and a timeout the sender has
`m_base = m_nextSeq = 1` and a running timer.  Hence the timer invariant does not hold for all
`totalPackets ≥ 1` and `windowSize ≥ 1`. -/
theorem GoBackNSender.gbn_timer_invariant_counterexample :
    (GoBackNSender.run GoBackNSender.liveAndSent (GoBackNSender.Setup 10 4294967295).StartApplication
        [GbnEvent.ack 0, GbnEvent.timeout]
      = some ⟨10, 4294967295, 1, 1, true, [0, 1, 2, 3, 4, 5, 6, 7, 8, 9]⟩) ∧
    ¬ (∀ (totalPackets windowSize : Nat) (evs : List GbnEvent) (s : GoBackNSender),
        1 ≤ totalPackets → 1 ≤ windowSize →
        totalPackets < 4294967296 → windowSize < 4294967296 →
        GoBackNSender.run GoBackNSender.liveAndSent
          (GoBackNSender.Setup totalPackets windowSize).StartApplication evs = some s →
        (s.m_timeoutEvent = true ↔ s.m_base ≠ s.m_nextSeq)) := by
  have hrun : GoBackNSender.run GoBackNSender.liveAndSent
      (GoBackNSender.Setup 10 4294967295).StartApplication [GbnEvent.ack 0, GbnEvent.timeout]
      = some ⟨10, 4294967295, 1, 1, true, [0, 1, 2, 3, 4, 5, 6, 7, 8, 9]⟩ := by decide
  refine ⟨hrun, fun hall => ?_⟩
  have := hall 10 4294967295 [GbnEvent.ack 0, GbnEvent.timeout] _ (by decide) (by decide)
    (by decide) (by decide) hrun
  simp at this

/-- C9 (amended). Go-Back-N timer invariant.  For `totalPackets ≥ 1`, `windowSize ≥ 1` and
`totalPackets + windowSize ≤ 2^32` (so that `m_base + m_windowSize` never wraps while
`m_base < totalPackets`), in every state reached from `StartApplication` by firings of the
running timer and by acks of sequence numbers already sent, the timer runs if and only if
`m_base ≠ m_nextSeq`. -/
theorem GoBackNSender.gbn_timer_invariant (totalPackets windowSize : Nat) (evs : List GbnEvent)
    (s : GoBackNSender) (hn : 1 ≤ totalPackets) (hw : 1 ≤ windowSize)
    (hsum : totalPackets + windowSize ≤ 4294967296)
    (h : GoBackNSender.run GoBackNSender.liveAndSent
      (GoBackNSender.Setup totalPackets windowSize).StartApplication evs = some s) :
    (s.m_timeoutEvent = true ↔ s.m_base ≠ s.m_nextSeq) := by
  have key : GoBackNSender.TimerInv totalPackets windowSize s := by
    refine GoBackNSender.run_invariant GoBackNSender.liveAndSent
      (GoBackNSender.TimerInv totalPackets windowSize)
      (fun t e hg ht => GoBackNSender.step_timer totalPackets windowSize hw hsum t e hg ht)
      evs _ s ?_ h
    exact GoBackNSender.SendWindow_armed totalPackets windowSize _ hw hsum rfl rfl (le_refl _)
      (by simp [GoBackNSender.Setup]) (by simp [GoBackNSender.Setup]; omega)
  exact key.2.2.2.2

/-- Witness for C9 (amended): ten packets, window four; after acks 0..3 and a timeout the
sender has `m_base = 4`, `m_nextSeq = 8` and a running timer. -/
theorem GoBackNSender.gbn_timer_invariant_witness :
    GoBackNSender.run GoBackNSender.liveAndSent (GoBackNSender.Setup 10 4).StartApplication
        [GbnEvent.ack 0, GbnEvent.ack 1, GbnEvent.ack 2, GbnEvent.ack 3, GbnEvent.timeout]
      = some ⟨10, 4, 4, 8, true, [0, 1, 2, 3, 4, 5, 6, 7, 4, 5, 6, 7]⟩ ∧
    ((true = true) ↔ (4 : Nat) ≠ 8) :=
  ⟨by decide,
   GoBackNSender.gbn_timer_invariant 10 4
      [GbnEvent.ack 0, GbnEvent.ack 1, GbnEvent.ack 2, GbnEvent.ack 3, GbnEvent.timeout]
      ⟨10, 4, 4, 8, true, [0, 1, 2, 3, 4, 5, 6, 7, 4, 5, 6, 7]⟩
      (by decide) (by decide) (by decide) (by decide)⟩

/-! ## Selective-Repeat: lemmas -/

theorem SelectiveSender.sr_sendLoop_frame (fuel i : Nat) (s : SelectiveSender) :
    (SelectiveSender.sendLoop fuel i s).m_totalPackets = s.m_totalPackets ∧
    (SelectiveSender.sendLoop fuel i s).m_windowSize = s.m_windowSize ∧
    (SelectiveSender.sendLoop fuel i s).m_base = s.m_base ∧
    (SelectiveSender.sendLoop fuel i s).m_ackedPackets = s.m_ackedPackets ∧
    (SelectiveSender.sendLoop fuel i s).m_packetSize = s.m_packetSize := by
  induction fuel generalizing i s with
  | zero => simp [SelectiveSender.sendLoop]
  | succ n ih =>
    simp only [SelectiveSender.sendLoop]
    split_ifs with h1 h2
    · have := ih (u32add i 1) (s.SendPacket i)
      simpa [SelectiveSender.SendPacket] using this
    · exact ih (u32add i 1) s
    · simp

theorem SelectiveSender.SendPacket_inv (s : SelectiveSender) (i : Nat)
    (hs : s.Inv) (h1 : i ∉ s.m_ackedPackets) (h2 : s.m_base ≤ i)
    (h3 : i < s.m_base + s.m_windowSize) : (s.SendPacket i).Inv := by
  obtain ⟨i0, i1, i2, i3, i4⟩ := hs
  refine ⟨i0, i1, i2, ?_, ?_⟩
  · intro k hk
    simp only [SelectiveSender.SendPacket] at hk ⊢
    by_cases hki : k = i
    · subst hki
      simp [h1, h2, h3]
    · rw [Function.update_noteq hki] at hk ⊢
      obtain ⟨a, b, c, d, e⟩ := i3 k hk
      exact ⟨a, b, c, d, List.mem_append_left _ e⟩
  · intro k hk hka
    simp only [SelectiveSender.SendPacket] at hk ⊢
    by_cases hki : k = i
    · subst hki; simp
    · rw [Function.update_noteq hki]
      refine i4 k ?_ hka
      simpa [hki] using hk

theorem SelectiveSender.sendLoop_inv (fuel i : Nat) (s : SelectiveSender)
    (hi : s.m_base ≤ i) (hs : s.Inv) : (SelectiveSender.sendLoop fuel i s).Inv := by
  induction fuel generalizing i s with
  | zero => simpa [SelectiveSender.sendLoop] using hs
  | succ n ih =>
    simp only [SelectiveSender.sendLoop]
    split_ifs with h1 h2
    · refine ih (u32add i 1) (s.SendPacket i) ?_ ?_
      · simp only [SelectiveSender.SendPacket, u32add] at h1 ⊢; omega
      · refine SelectiveSender.SendPacket_inv s i hs h2.1 hi ?_
        simp only [u32add] at h1; omega
    · refine ih (u32add i 1) s ?_ hs
      simp only [u32add] at h1 ⊢; omega
    · exact hs

theorem SelectiveSender.sendLoop_timers_mono (fuel i : Nat) (s : SelectiveSender) (k : Nat)
    (hk : s.m_timers k ≠ none) : (SelectiveSender.sendLoop fuel i s).m_timers k ≠ none := by
  induction fuel generalizing i s with
  | zero => simpa [SelectiveSender.sendLoop] using hk
  | succ n ih =>
    simp only [SelectiveSender.sendLoop]
    split_ifs with h1 h2
    · refine ih (u32add i 1) (s.SendPacket i) ?_
      simp only [SelectiveSender.SendPacket]
      by_cases hki : k = i
      · subst hki; simp
      · rwa [Function.update_noteq hki]
    · exact ih (u32add i 1) s hk
    · exact hk

/-- The fuel given by `SendWindow` lets the `for` loop finish: afterwards every sequence number
from `i` on that passes the loop test is acknowledged or has a timer entry. -/
theorem SelectiveSender.sendLoop_complete (fuel i : Nat) (s : SelectiveSender)
    (hf : s.m_totalPackets - i ≤ fuel) (k : Nat) (hik : i ≤ k)
    (hk1 : k < u32add s.m_base s.m_windowSize) (hk2 : k < s.m_totalPackets) :
    k ∈ s.m_ackedPackets ∨ (SelectiveSender.sendLoop fuel i s).m_timers k ≠ none := by
  induction fuel generalizing i s with
  | zero => omega
  | succ n ih =>
    simp only [SelectiveSender.sendLoop]
    have hu : u32add s.m_base s.m_windowSize < 4294967296 := by
      simp only [u32add]; omega
    have hi1 : u32add i 1 = i + 1 := by
      simp only [u32add]; omega
    rw [if_pos (show i < u32add s.m_base s.m_windowSize ∧ i < s.m_totalPackets from
      ⟨by omega, by omega⟩), hi1]
    by_cases hki : k = i
    · subst hki
      split_ifs with h2
      · right
        refine SelectiveSender.sendLoop_timers_mono _ _ _ _ ?_
        simp [SelectiveSender.SendPacket]
      · by_cases hka : k ∈ s.m_ackedPackets
        · exact Or.inl hka
        · right
          refine SelectiveSender.sendLoop_timers_mono _ _ _ _ ?_
          intro hn
          exact h2 ⟨hka, hn⟩
    · split_ifs with h2
      · have := ih (i + 1) (s.SendPacket i) (by simp only [SelectiveSender.SendPacket]; omega)
          (by omega) (by simpa [SelectiveSender.SendPacket] using hk1)
          (by simpa [SelectiveSender.SendPacket] using hk2)
        simpa [SelectiveSender.SendPacket] using this
      · exact ih (i + 1) s (by omega) (by omega) hk1 hk2

/-- Fuel beyond what `SendWindow` supplies does not change the result of the `for` loop: the
loop leaves through its test. -/
theorem SelectiveSender.sendLoop_fuel (fuel extra i : Nat) (s : SelectiveSender)
    (hf : s.m_totalPackets - i ≤ fuel) :
    SelectiveSender.sendLoop (fuel + extra) i s = SelectiveSender.sendLoop fuel i s := by
  induction fuel generalizing i s with
  | zero =>
    cases extra with
    | zero => rfl
    | succ e =>
      have hc : ¬ (i < u32add s.m_base s.m_windowSize ∧ i < s.m_totalPackets) := by omega
      simp only [Nat.zero_add, SelectiveSender.sendLoop, if_neg hc]
  | succ n ih =>
    rw [Nat.add_right_comm]
    simp only [SelectiveSender.sendLoop]
    split_ifs with h1 h2
    · refine ih (u32add i 1) (s.SendPacket i) ?_
      simp only [SelectiveSender.SendPacket, u32add] at h1 ⊢; omega
    · refine ih (u32add i 1) s ?_
      simp only [u32add] at h1 ⊢; omega
    · rfl

theorem SelectiveSender.advanceBase_some (acked : Finset Nat) (fuel b c : Nat)
    (hb : b < 4294967296)
    (h : SelectiveSender.advanceBase acked fuel b = some c) :
    c ∉ acked ∧ ∃ i, i < fuel ∧ c = (b + i) % 4294967296 ∧
      ∀ j, j < i → (b + j) % 4294967296 ∈ acked := by
  induction fuel generalizing b with
  | zero => simp [SelectiveSender.advanceBase] at h
  | succ n ih =>
    simp only [SelectiveSender.advanceBase] at h
    split_ifs at h with hm
    · obtain ⟨h1, i, hi, hc, hj⟩ := ih (u32add b 1) (by simp only [u32add]; omega) h
      refine ⟨h1, i + 1, by omega, ?_, ?_⟩
      · rw [hc]; simp only [u32add]; omega
      · intro j hj2
        rcases Nat.eq_zero_or_pos j with h0 | hpos
        · subst h0
          have : (b + 0) % 4294967296 = b := by omega
          rw [this]; exact hm
        · have hq := hj (j - 1) (by omega)
          have : (u32add b 1 + (j - 1)) % 4294967296 = (b + j) % 4294967296 := by
            simp only [u32add]; omega
          rwa [this] at hq
    · simp only [Option.some.injEq] at h
      subst h
      exact ⟨hm, 0, by omega, by omega, fun j hj => by omega⟩

theorem SelectiveSender.advanceBase_none (acked : Finset Nat) (fuel b : Nat)
    (hb : b < 4294967296)
    (h : SelectiveSender.advanceBase acked fuel b = none) :
    ∀ j, j < fuel → (b + j) % 4294967296 ∈ acked := by
  induction fuel generalizing b with
  | zero => intro j hj; omega
  | succ n ih =>
    simp only [SelectiveSender.advanceBase] at h
    split_ifs at h with hm
    intro j hj2
    rcases Nat.eq_zero_or_pos j with h0 | hpos
    · subst h0
      have : (b + 0) % 4294967296 = b := by omega
      rw [this]; exact hm
    · have hq := ih (u32add b 1) (by simp only [u32add]; omega) h (j - 1) (by omega)
      have : (u32add b 1 + (j - 1)) % 4294967296 = (b + j) % 4294967296 := by
        simp only [u32add]; omega
      rwa [this] at hq

/-- The state in which `HandleAck` calls `SendWindow`, given the new base `b`. -/
theorem SelectiveSender.HandleAck_eq (s : SelectiveSender) (a : Nat) :
    s.HandleAck a =
      (SelectiveSender.advanceBase (insert a s.m_ackedPackets) 4294967296 s.m_base).map
        fun b => SelectiveSender.SendWindow
          { s with m_ackedPackets := insert a s.m_ackedPackets,
                   m_timers := if s.m_timers a ≠ none then Function.update s.m_timers a none
                               else s.m_timers,
                   m_base := b } := by
  unfold SelectiveSender.HandleAck
  by_cases h : s.m_timers a ≠ none
  · simp only [if_pos h]
  · simp only [if_neg h]

theorem SelectiveSender.erase_timer (f : Nat → Option Bool) (a : Nat) :
    (if f a ≠ none then Function.update f a none else f) a = none ∧
    ∀ k, k ≠ a → (if f a ≠ none then Function.update f a none else f) k = f k := by
  by_cases h : f a ≠ none
  · rw [if_pos h]
    exact ⟨by simp, fun k hk => Function.update_noteq hk _ _⟩
  · rw [if_neg h]
    exact ⟨by simpa using h, fun _ _ => rfl⟩

theorem SelectiveSender.SendWindow_inv (s : SelectiveSender) (hs : s.Inv) : s.SendWindow.Inv :=
  SelectiveSender.sendLoop_inv _ _ s (le_refl _) hs

theorem SelectiveSender.HandleAck_spec (s t : SelectiveSender) (a : Nat) (hs : s.Inv)
    (h : s.HandleAck a = some t) :
    t.Inv ∧ s.m_base ≤ t.m_base ∧ t.m_ackedPackets = insert a s.m_ackedPackets ∧
    (∀ n, s.m_base ≤ n → n < t.m_base → n ∈ t.m_ackedPackets) ∧
    t.m_windowSize = s.m_windowSize ∧ t.m_totalPackets = s.m_totalPackets := by
  obtain ⟨i0, i1, i2, i3, i4⟩ := hs
  rw [SelectiveSender.HandleAck_eq, Option.map_eq_some'] at h
  obtain ⟨b, hb, ht⟩ := h
  obtain ⟨hb1, i, hi, hbi, hj⟩ := SelectiveSender.advanceBase_some _ _ _ _ i0 hb
  obtain ⟨e1, e2⟩ := SelectiveSender.erase_timer s.m_timers a
  -- the loop does not wrap: a wrapped base would be an acknowledged number
  have hnw : s.m_base + i < 4294967296 := by
    by_contra hc
    have hlt : b < s.m_base := by omega
    exact hb1 (Finset.mem_insert_of_mem (i1 b hlt))
  have hbeq : b = s.m_base + i := by omega
  have hmid : ∀ n, s.m_base ≤ n → n < b → n ∈ insert a s.m_ackedPackets := by
    intro n h1 h2
    have := hj (n - s.m_base) (by omega)
    have e : (s.m_base + (n - s.m_base)) % 4294967296 = n := by omega
    rwa [e] at this
  have hinv : SelectiveSender.Inv
      { s with m_ackedPackets := insert a s.m_ackedPackets,
               m_timers := if s.m_timers a ≠ none then Function.update s.m_timers a none
                           else s.m_timers,
               m_base := b } := by
    refine ⟨by dsimp only; omega, ?_, hb1, ?_, ?_⟩
    · intro n hn
      dsimp only at hn ⊢
      by_cases hlt : n < s.m_base
      · exact Finset.mem_insert_of_mem (i1 n hlt)
      · exact hmid n (by omega) hn
    · intro k hk
      dsimp only at hk ⊢
      have hka : k ≠ a := by
        intro hka; subst hka; exact hk e1
      rw [e2 k hka] at hk ⊢
      obtain ⟨p1, p2, p3, p4, p5⟩ := i3 k hk
      have hk2 : k ∉ insert a s.m_ackedPackets := by
        simp only [Finset.mem_insert, not_or]; exact ⟨hka, p2⟩
      refine ⟨p1, hk2, ?_, by omega, p5⟩
      by_contra hc
      exact hk2 (hmid k p3 (by omega))
    · intro k hk hka
      dsimp only at hk hka ⊢
      simp only [Finset.mem_insert, not_or] at hka
      rw [e2 k hka.1]
      exact i4 k hk hka.2
  subst ht
  obtain ⟨f1, f2, f3, f4, -⟩ := SelectiveSender.sr_sendLoop_frame (s.m_totalPackets - b) b
    { s with m_ackedPackets := insert a s.m_ackedPackets,
             m_timers := if s.m_timers a ≠ none then Function.update s.m_timers a none
                         else s.m_timers,
             m_base := b }
  refine ⟨SelectiveSender.SendWindow_inv _ hinv, ?_, ?_, ?_, ?_, ?_⟩
  · show _ ≤ (SelectiveSender.sendLoop _ _ _).m_base
    rw [f3]; dsimp only; omega
  · show (SelectiveSender.sendLoop _ _ _).m_ackedPackets = _
    rw [f4]
  · intro n h1 h2
    change n < (SelectiveSender.sendLoop _ _ _).m_base at h2
    show n ∈ (SelectiveSender.sendLoop _ _ _).m_ackedPackets
    rw [f3] at h2
    rw [f4]
    exact hmid n h1 h2
  · show (SelectiveSender.sendLoop _ _ _).m_windowSize = _
    rw [f2]
  · show (SelectiveSender.sendLoop _ _ _).m_totalPackets = _
    rw [f1]

/-- Totality: `HandleAck` returns unless every `uint32_t` value is acknowledged afterwards. -/
theorem SelectiveSender.HandleAck_returns (s : SelectiveSender) (a n : Nat)
    (hb : s.m_base < 4294967296)
    (hn : n < 4294967296) (hna : n ∉ insert a s.m_ackedPackets) :
    (s.HandleAck a).isSome = true := by
  rw [SelectiveSender.HandleAck_eq, Option.isSome_map']
  by_contra hc
  have hnone : SelectiveSender.advanceBase (insert a s.m_ackedPackets) 4294967296 s.m_base
      = none := by
    simpa using hc
  have := SelectiveSender.advanceBase_none _ _ _ hb hnone
    ((n + 4294967296 - s.m_base) % 4294967296) (by omega)
  have e : (s.m_base + (n + 4294967296 - s.m_base) % 4294967296) % 4294967296 = n := by omega
  rw [e] at this
  exact hna this

theorem SelectiveSender.fireTimeout_inv (s : SelectiveSender) (seq : Nat) (hs : s.Inv)
    (h : s.m_timers seq = some true) :
    (s.fireTimeout seq).Inv ∧ (s.fireTimeout seq).m_windowSize = s.m_windowSize ∧
    (s.fireTimeout seq).m_totalPackets = s.m_totalPackets := by
  obtain ⟨i0, i1, i2, i3, i4⟩ := hs
  obtain ⟨p1, p2, p3, p4, p5⟩ := i3 seq (by simp [h])
  have e : s.fireTimeout seq =
      { s with sent := s.sent ++ [seq],
               m_timers := Function.update (Function.update s.m_timers seq (some false)) seq
                 (some true) } := by
    simp [SelectiveSender.fireTimeout, SelectiveSender.Timeout, SelectiveSender.SendPacket, p2]
  rw [e]
  refine ⟨⟨i0, i1, i2, ?_, ?_⟩, rfl, rfl⟩
  · intro k hk
    dsimp only at hk ⊢
    by_cases hks : k = seq
    · subst hks
      simp [p2, p3, p4]
    · rw [Function.update_noteq hks, Function.update_noteq hks] at hk ⊢
      obtain ⟨q1, q2, q3, q4, q5⟩ := i3 k hk
      exact ⟨q1, q2, q3, q4, List.mem_append_left _ q5⟩
  · intro k hk hka
    dsimp only at hk hka ⊢
    by_cases hks : k = seq
    · subst hks; simp
    · rw [Function.update_noteq hks, Function.update_noteq hks]
      refine i4 k ?_ hka
      simpa [hks] using hk

theorem SelectiveSender.run_inv :
    ∀ (evs : List SrEvent) (s t : SelectiveSender),
      s.Inv → SelectiveSender.run s evs = some t →
      t.Inv ∧ t.m_windowSize = s.m_windowSize ∧ t.m_totalPackets = s.m_totalPackets := by
  intro evs
  induction evs with
  | nil =>
    intro s t hs h
    simp only [SelectiveSender.run, Option.some.injEq] at h
    subst h
    exact ⟨hs, rfl, rfl⟩
  | cons e es ih =>
    intro s t hs h
    simp only [SelectiveSender.run, Option.bind_eq_some] at h
    obtain ⟨u, hu, hrest⟩ := h
    have hstep : u.Inv ∧ u.m_windowSize = s.m_windowSize ∧
        u.m_totalPackets = s.m_totalPackets := by
      cases e with
      | timeout seq =>
        simp only [SelectiveSender.step] at hu
        split_ifs at hu with hlive
        simp only [Option.some.injEq] at hu
        subst hu
        exact SelectiveSender.fireTimeout_inv s seq hs hlive
      | ack a =>
        simp only [SelectiveSender.step] at hu
        obtain ⟨q1, -, -, -, q5, q6⟩ := SelectiveSender.HandleAck_spec s u a hs hu
        exact ⟨q1, q5, q6⟩
    obtain ⟨r1, r2, r3⟩ := ih u t hstep.1 hrest
    exact ⟨r1, r2.trans hstep.2.1, r3.trans hstep.2.2⟩

theorem SelectiveSender.start_inv (packetSize totalPackets windowSize : Nat) :
    (SelectiveSender.Setup packetSize totalPackets windowSize).StartApplication.Inv ∧
    (SelectiveSender.Setup packetSize totalPackets windowSize).StartApplication.m_windowSize
      = windowSize := by
  refine ⟨SelectiveSender.SendWindow_inv _ ?_, ?_⟩
  · refine ⟨by simp [SelectiveSender.Setup], ?_, by simp [SelectiveSender.Setup], ?_, ?_⟩
    · intro n hn; simp [SelectiveSender.Setup] at hn
    · intro k hk; simp [SelectiveSender.Setup] at hk
    · intro k hk; simp [SelectiveSender.Setup] at hk
  · exact (SelectiveSender.sr_sendLoop_frame _ _ _).2.1

theorem SelectiveSender.reach_inv (packetSize totalPackets windowSize : Nat)
    (evs : List SrEvent) (s : SelectiveSender)
    (h : SelectiveSender.run
      (SelectiveSender.Setup packetSize totalPackets windowSize).StartApplication evs = some s) :
    s.Inv ∧ s.m_windowSize = windowSize := by
  obtain ⟨a, b⟩ := SelectiveSender.start_inv packetSize totalPackets windowSize
  obtain ⟨r1, r2, -⟩ := SelectiveSender.run_inv evs _ s a h
  exact ⟨r1, r2.trans b⟩

/-- C2. Selective-Repeat window bound.  In every state reached from `StartApplication` by acks
of any value and firings of running timers, every key of `m_timers` lies in
`[m_base, m_base + m_windowSize)`, and any set of keys of `m_timers` (equally any set of sent
and unacknowledged sequence numbers) has at most `m_windowSize` elements. -/
theorem SelectiveSender.sr_window_bound (packetSize totalPackets windowSize : Nat)
    (evs : List SrEvent) (s : SelectiveSender)
    (h : SelectiveSender.run
      (SelectiveSender.Setup packetSize totalPackets windowSize).StartApplication evs = some s) :
    s.m_windowSize = windowSize ∧
    (∀ k, s.m_timers k ≠ none → s.m_base ≤ k ∧ k < s.m_base + s.m_windowSize) ∧
    (∀ K : Finset Nat, (∀ k ∈ K, s.m_timers k ≠ none) → K.card ≤ s.m_windowSize) ∧
    (∀ K : Finset Nat, (∀ k ∈ K, k ∈ s.sent ∧ k ∉ s.m_ackedPackets) →
      K.card ≤ s.m_windowSize) := by
  obtain ⟨⟨-, -, -, i3, i4⟩, hw⟩ := SelectiveSender.reach_inv _ _ _ evs s h
  have hin : ∀ k, s.m_timers k ≠ none → s.m_base ≤ k ∧ k < s.m_base + s.m_windowSize :=
    fun k hk => ⟨(i3 k hk).2.2.1, (i3 k hk).2.2.2.1⟩
  have hcard : ∀ K : Finset Nat, (∀ k ∈ K, s.m_timers k ≠ none) → K.card ≤ s.m_windowSize := by
    intro K hK
    have hsub : K ⊆ Finset.Ico s.m_base (s.m_base + s.m_windowSize) := by
      intro k hk
      rw [Finset.mem_Ico]
      exact hin k (hK k hk)
    have := Finset.card_le_card hsub
    simpa using this
  exact ⟨hw, hin, hcard, fun K hK => hcard K fun k hk => i4 k (hK k hk).1 (hK k hk).2⟩

/-- Witness for C2: ten packets, window four; ack 1, the timer of 0 fires, ack 0. -/
theorem SelectiveSender.sr_window_bound_witness :
    ∃ s, SelectiveSender.run (SelectiveSender.Setup 1024 10 4).StartApplication
        [SrEvent.ack 1, SrEvent.timeout 0, SrEvent.ack 0] = some s ∧
      s.m_base = 2 ∧ s.sent = [0, 1, 2, 3, 0, 4, 5] ∧
      (∀ k, s.m_timers k ≠ none → s.m_base ≤ k ∧ k < s.m_base + s.m_windowSize) :=
  ⟨(SelectiveSender.run (SelectiveSender.Setup 1024 10 4).StartApplication
      [SrEvent.ack 1, SrEvent.timeout 0, SrEvent.ack 0]).get (by decide),
   (Option.some_get _).symm, by decide, by decide,
   (SelectiveSender.sr_window_bound 1024 10 4 [SrEvent.ack 1, SrEvent.timeout 0, SrEvent.ack 0] _
      (Option.some_get _).symm).2.1⟩

/-- C4. Selective-Repeat contiguous prefix.  In every state reached from `StartApplication` by
acks and firings of running timers, every sequence number below `m_base` is acknowledged and
`m_base` is not.  From such a state `HandleAck` returns unless every `uint32_t` value is then
acknowledged, and when it returns the new `m_base` is the least sequence number from the old
`m_base` on that is not acknowledged. -/
theorem SelectiveSender.acked_below_base (packetSize totalPackets windowSize : Nat)
    (evs : List SrEvent) (s : SelectiveSender)
    (h : SelectiveSender.run
      (SelectiveSender.Setup packetSize totalPackets windowSize).StartApplication evs = some s) :
    (∀ n, n < s.m_base → n ∈ s.m_ackedPackets) ∧
    s.m_base ∉ s.m_ackedPackets ∧
    (∀ a n, n < 4294967296 → n ∉ insert a s.m_ackedPackets → (s.HandleAck a).isSome = true) ∧
    (∀ a t, s.HandleAck a = some t →
      t.m_ackedPackets = insert a s.m_ackedPackets ∧
      s.m_base ≤ t.m_base ∧ t.m_base ∉ t.m_ackedPackets ∧
      (∀ n, s.m_base ≤ n → n < t.m_base → n ∈ t.m_ackedPackets)) := by
  obtain ⟨hinv, -⟩ := SelectiveSender.reach_inv _ _ _ evs s h
  refine ⟨hinv.2.1, hinv.2.2.1, ?_, ?_⟩
  · intro a n hn hna
    exact SelectiveSender.HandleAck_returns s a n hinv.1 hn hna
  · intro a t ht
    obtain ⟨q1, q2, q3, q4, -, -⟩ := SelectiveSender.HandleAck_spec s t a hinv ht
    exact ⟨q3, q2, q1.2.2.1, q4⟩

/-- Witness for C4: ten packets, window four; acks 1, 2 and 0 move `m_base` to 3. -/
theorem SelectiveSender.acked_below_base_witness :
    ∃ s, SelectiveSender.run (SelectiveSender.Setup 1024 10 4).StartApplication
        [SrEvent.ack 1, SrEvent.ack 2, SrEvent.ack 0] = some s ∧
      s.m_base = 3 ∧ s.m_ackedPackets = {0, 1, 2} ∧
      (∀ n, n < s.m_base → n ∈ s.m_ackedPackets) ∧ s.m_base ∉ s.m_ackedPackets :=
  ⟨(SelectiveSender.run (SelectiveSender.Setup 1024 10 4).StartApplication
      [SrEvent.ack 1, SrEvent.ack 2, SrEvent.ack 0]).get (by decide),
   (Option.some_get _).symm, by decide, by decide,
   (SelectiveSender.acked_below_base 1024 10 4 [SrEvent.ack 1, SrEvent.ack 2, SrEvent.ack 0] _
      (Option.some_get _).symm).1,
   (SelectiveSender.acked_below_base 1024 10 4 [SrEvent.ack 1, SrEvent.ack 2, SrEvent.ack 0] _
      (Option.some_get _).symm).2.1⟩

/-- C10. Selective-Repeat timer invariant.  In every state reached from `StartApplication` by
acks of any value and firings of running timers, a sequence number `K` has an entry in
`m_timers` if and only if `K` was sent and is not in `m_ackedPackets`; every entry is a running
timer. -/
theorem SelectiveSender.sr_timer_invariant (packetSize totalPackets windowSize : Nat)
    (evs : List SrEvent) (s : SelectiveSender)
    (h : SelectiveSender.run
      (SelectiveSender.Setup packetSize totalPackets windowSize).StartApplication evs = some s) :
    ∀ K, (s.m_timers K ≠ none ↔ K ∈ s.sent ∧ K ∉ s.m_ackedPackets) ∧
      (s.m_timers K ≠ none → s.m_timers K = some true) := by
  obtain ⟨⟨-, -, -, i3, i4⟩, -⟩ := SelectiveSender.reach_inv _ _ _ evs s h
  intro K
  refine ⟨⟨fun hk => ⟨(i3 K hk).2.2.2.2, (i3 K hk).2.1⟩, fun hk => i4 K hk.1 hk.2⟩,
    fun hk => (i3 K hk).1⟩

/-- Witness for C10: ten packets, window four; ack 2, the timer of 1 fires, ack 7. -/
theorem SelectiveSender.sr_timer_invariant_witness :
    ∃ s, SelectiveSender.run (SelectiveSender.Setup 1024 10 4).StartApplication
        [SrEvent.ack 2, SrEvent.timeout 1, SrEvent.ack 7] = some s ∧
      s.sent = [0, 1, 2, 3, 1] ∧ s.m_ackedPackets = {7, 2} ∧
      (List.range 10).map s.m_timers
        = [some true, some true, none, some true, none, none, none, none, none, none] ∧
      (s.m_timers 2 ≠ none ↔ 2 ∈ s.sent ∧ 2 ∉ s.m_ackedPackets) :=
  ⟨(SelectiveSender.run (SelectiveSender.Setup 1024 10 4).StartApplication
      [SrEvent.ack 2, SrEvent.timeout 1, SrEvent.ack 7]).get (by decide),
   (Option.some_get _).symm, by decide, by decide, by decide,
   ((SelectiveSender.sr_timer_invariant 1024 10 4 [SrEvent.ack 2, SrEvent.timeout 1, SrEvent.ack 7] _
      (Option.some_get _).symm) 2).1⟩

/-! ## Selective-Repeat receiver and Stop-and-Wait -/

theorem decodeU32_lt (p : List Nat) : decodeU32 p < 4294967296 := by
  simp only [decodeU32]; omega

theorem decodeU32_encodeU32 (n : Nat) (h : n < 4294967296) : decodeU32 (encodeU32 n) = n := by
  simp only [decodeU32, encodeU32, List.getD_cons_zero, List.getD_cons_succ]
  omega

/-- C6. Stop-and-Wait receiver acceptance policy.  With `m_expectedSeq ∈ {0, 1}` and a packet
of at least four bytes carrying `seqnum`: when `seqnum = m_expectedSeq` the receiver appends one
ack carrying `seqnum` to its send log and sets `m_expectedSeq` to `1 - m_expectedSeq`;
otherwise it appends one ack carrying `1 - m_expectedSeq` and keeps `m_expectedSeq`.  In both
cases `m_expectedSeq` stays in `{0, 1}`. -/
theorem SWReceiver.sw_HandleRead_policy (r : SWReceiver) (packet : List Nat)
    (he : r.m_expectedSeq = 0 ∨ r.m_expectedSeq = 1) (hp : 4 ≤ packet.length) :
    (decodeU32 packet = r.m_expectedSeq →
      (r.HandleRead packet).sent = r.sent ++ [encodeU32 (decodeU32 packet)] ∧
      decodeU32 (encodeU32 (decodeU32 packet)) = decodeU32 packet ∧
      (r.HandleRead packet).m_expectedSeq = 1 - r.m_expectedSeq) ∧
    (decodeU32 packet ≠ r.m_expectedSeq →
      (r.HandleRead packet).sent = r.sent ++ [encodeU32 (1 - r.m_expectedSeq)] ∧
      decodeU32 (encodeU32 (1 - r.m_expectedSeq)) = 1 - r.m_expectedSeq ∧
      (r.HandleRead packet).m_expectedSeq = r.m_expectedSeq) ∧
    ((r.HandleRead packet).m_expectedSeq = 0 ∨ (r.HandleRead packet).m_expectedSeq = 1) := by
  have hlen : ¬ packet.length < 4 := by omega
  have hsub : u32sub 1 r.m_expectedSeq = 1 - r.m_expectedSeq := by
    simp only [u32sub]; omega
  by_cases h : decodeU32 packet = r.m_expectedSeq
  · have e : r.HandleRead packet
        = ⟨1 - r.m_expectedSeq, r.sent ++ [encodeU32 (decodeU32 packet)]⟩ := by
      simp [SWReceiver.HandleRead, SWReceiver.SendAck, hlen, h, hsub]
    rw [e]
    refine ⟨fun _ => ⟨rfl, decodeU32_encodeU32 _ (decodeU32_lt _), rfl⟩,
      fun hn => absurd h hn, ?_⟩
    dsimp only; omega
  · have e : r.HandleRead packet
        = ⟨r.m_expectedSeq, r.sent ++ [encodeU32 (1 - r.m_expectedSeq)]⟩ := by
      simp [SWReceiver.HandleRead, SWReceiver.SendAck, hlen, h, hsub]
    rw [e]
    exact ⟨fun h3 => absurd h3 h, fun _ => ⟨rfl, decodeU32_encodeU32 _ (by omega), rfl⟩, he⟩

/-- Witness for C6: the receiver expects bit 1 and receives a retransmission of bit 0. -/
theorem SWReceiver.sw_HandleRead_policy_witness :
    ((1 : Nat) = 0 ∨ (1 : Nat) = 1) ∧ 4 ≤ [0, 0, 0, 0, 68, 65, 84, 65].length ∧
    decodeU32 [0, 0, 0, 0, 68, 65, 84, 65] ≠ 1 ∧
    ((⟨1, []⟩ : SWReceiver).HandleRead [0, 0, 0, 0, 68, 65, 84, 65]).sent
      = [] ++ [encodeU32 (1 - 1)] ∧
    ((⟨1, []⟩ : SWReceiver).HandleRead [0, 0, 0, 0, 68, 65, 84, 65]).m_expectedSeq = 1 :=
  ⟨Or.inr rfl, by decide, by decide,
   ((SWReceiver.sw_HandleRead_policy ⟨1, []⟩ [0, 0, 0, 0, 68, 65, 84, 65] (Or.inr rfl)
      (by decide)).2.1 (by decide)).1,
   ((SWReceiver.sw_HandleRead_policy ⟨1, []⟩ [0, 0, 0, 0, 68, 65, 84, 65] (Or.inr rfl)
      (by decide)).2.1 (by decide)).2.2⟩

/-- C7. Stop-and-Wait sender ack processing.  On a packet of at least four bytes carrying
`ackSeq`, `HandleRead` accepts exactly when `ackSeq = m_seq` and `m_waitingAck`.  On acceptance
`m_waitingAck` becomes false, `m_seqCount` is incremented and `m_seq` becomes `1 - m_seq` (both
in `uint32_t`), the retransmission timer is cancelled and one `SendNewPacket` with delay
`m_interPacket` is added to the pending events; nothing is sent.  In every other case the
state, including the send log and the pending events, is unchanged. -/
theorem SWSender.HandleRead_ack (s : SWSender) (packet : List Nat) (hp : 4 ≤ packet.length) :
    (decodeU32 packet = s.m_seq ∧ s.m_waitingAck = true →
      (s.HandleRead packet).m_waitingAck = false ∧
      (s.HandleRead packet).m_seqCount = u32add s.m_seqCount 1 ∧
      (s.m_seqCount + 1 < 4294967296 → (s.HandleRead packet).m_seqCount = s.m_seqCount + 1) ∧
      (s.HandleRead packet).m_seq = u32sub 1 s.m_seq ∧
      (s.m_seq ≤ 1 → (s.HandleRead packet).m_seq = 1 - s.m_seq) ∧
      (s.HandleRead packet).m_retxEvent = false ∧
      (s.HandleRead packet).pendingSend = s.pendingSend ++ [s.m_interPacket] ∧
      (s.HandleRead packet).sent = s.sent ∧
      (s.HandleRead packet).m_totalPackets = s.m_totalPackets) ∧
    (¬ (decodeU32 packet = s.m_seq ∧ s.m_waitingAck = true) → s.HandleRead packet = s) := by
  have hlen : ¬ packet.length < 4 := by omega
  constructor
  · intro h
    have e : s.HandleRead packet =
        { s with m_waitingAck := false, m_seqCount := u32add s.m_seqCount 1,
                 m_seq := u32sub 1 s.m_seq, m_retxEvent := false,
                 pendingSend := s.pendingSend ++ [s.m_interPacket] } := by
      simp only [SWSender.HandleRead, if_neg hlen, if_pos h]
    rw [e]
    refine ⟨rfl, rfl, ?_, rfl, ?_, rfl, rfl, rfl, rfl⟩
    · intro hlt; simp only [u32add]; omega
    · intro hle; simp only [u32sub]; omega
  · intro h
    simp only [SWSender.HandleRead, if_neg hlen, if_neg h]

/-- Witness for C7: the sender waits for the ack of bit 0 and receives it. -/
theorem SWSender.HandleRead_ack_witness :
    4 ≤ [0, 0, 0, 0].length ∧
    ((SWSender.Setup 500 6 200).StartApplication.HandleRead [0, 0, 0, 0]).m_seq = 1 - 0 ∧
    ((SWSender.Setup 500 6 200).StartApplication.HandleRead [0, 0, 0, 0]).pendingSend
      = [] ++ [200] :=
  ⟨by decide,
   ((SWSender.HandleRead_ack (SWSender.Setup 500 6 200).StartApplication [0, 0, 0, 0]
      (by decide)).1 (by decide)).2.2.2.2.1 (by decide),
   ((SWSender.HandleRead_ack (SWSender.Setup 500 6 200).StartApplication [0, 0, 0, 0]
      (by decide)).1 (by decide)).2.2.2.2.2.2.1⟩

/-- C8. Selective-Repeat receiver policy.  For every sequence number `seq` and every draw,
`HandleRead` sends nothing when the draw is below the loss threshold and otherwise appends
exactly one ack carrying `seq`; the acks appended are the same for any two receiver states. -/
theorem SelectiveReceiver.sr_HandleRead_policy (r : SelectiveReceiver) (draw : ℚ) (seq : Nat) :
    (draw < SelectiveReceiver.lossThreshold → (r.HandleRead draw seq).sent = r.sent) ∧
    (¬ draw < SelectiveReceiver.lossThreshold → (r.HandleRead draw seq).sent = r.sent ++ [seq]) ∧
    (∀ r2 : SelectiveReceiver,
      (r.HandleRead draw seq).sent.drop r.sent.length
        = (r2.HandleRead draw seq).sent.drop r2.sent.length) := by
  refine ⟨fun h => ?_, fun h => ?_, fun r2 => ?_⟩
  · simp only [SelectiveReceiver.HandleRead, if_pos h]
  · simp only [SelectiveReceiver.HandleRead, if_neg h]
  · by_cases h : draw < SelectiveReceiver.lossThreshold
    · simp only [SelectiveReceiver.HandleRead, if_pos h, List.drop_length]
    · simp only [SelectiveReceiver.HandleRead, if_neg h, List.drop_left]

/-- Two evaluations of the Selective-Repeat receiver: the draw `1/20` loses packet 5, the draw
`1/2` acknowledges it. -/
theorem SelectiveReceiver.sr_HandleRead_examples :
    (⟨[3]⟩ : SelectiveReceiver).HandleRead (1 / 20) 5 = ⟨[3]⟩ ∧
    (⟨[3]⟩ : SelectiveReceiver).HandleRead (1 / 2) 5 = ⟨[3, 5]⟩ := by
  constructor
  · have h : (1 / 20 : ℚ) < SelectiveReceiver.lossThreshold := by
      unfold SelectiveReceiver.lossThreshold; norm_num
    simp only [SelectiveReceiver.HandleRead, if_pos h]
  · have h : ¬ (1 / 2 : ℚ) < SelectiveReceiver.lossThreshold := by
      unfold SelectiveReceiver.lossThreshold; norm_num
    simp only [SelectiveReceiver.HandleRead, if_neg h]
    rfl

/-! ## Stop-and-Wait sender: runs -/

theorem SWSender.SendNewPacket_inv (s : SWSender) (h1 : s.m_retxEvent = s.m_waitingAck)
    (h2 : s.m_seq = 0 ∨ s.m_seq = 1) (h3 : s.pendingSend = [])
    (h5 : s.m_waitingAck = true → s.sent.getLast? = some (encodeU32 s.m_seq ++ payloadDATA)) :
    s.SendNewPacket.Inv ∧
    (s.SendNewPacket.sent = s.sent ∨
      (s.SendNewPacket.sent = s.sent ++ [encodeU32 s.SendNewPacket.m_seq ++ payloadDATA] ∧
        s.SendNewPacket.m_waitingAck = true ∧ s.SendNewPacket.m_seq = s.m_seq)) := by
  unfold SWSender.SendNewPacket
  split_ifs with c1 c2
  · exact ⟨⟨h1, h2, fun _ => h3, by simp [h3], h5⟩, Or.inl rfl⟩
  · exact ⟨⟨h1, h2, fun _ => h3, by simp [h3], h5⟩, Or.inl rfl⟩
  · refine ⟨⟨rfl, h2, fun _ => h3, by simp [h3], fun _ => by simp⟩, Or.inr ⟨rfl, rfl, rfl⟩⟩

theorem SWSender.step_inv (s t : SWSender) (e : SwEvent) (hs : s.Inv) (h : s.step e = some t) :
    t.Inv ∧
    (t.sent = s.sent ∨
      (t.sent = s.sent ++ [encodeU32 t.m_seq ++ payloadDATA] ∧ t.m_waitingAck = true ∧
        t.m_seq = s.m_seq)) := by
  obtain ⟨h1, h2, h3, h4, h5⟩ := hs
  cases e with
  | read p =>
    simp only [SWSender.step, Option.some.injEq] at h
    subst h
    by_cases c : ¬ p.length < 4 ∧ decodeU32 p = s.m_seq ∧ s.m_waitingAck = true
    · have e : s.HandleRead p =
          { s with m_waitingAck := false, m_seqCount := u32add s.m_seqCount 1,
                   m_seq := u32sub 1 s.m_seq, m_retxEvent := false,
                   pendingSend := s.pendingSend ++ [s.m_interPacket] } := by
        simp only [SWSender.HandleRead, if_neg c.1, if_pos c.2]
      rw [e]
      refine ⟨⟨rfl, ?_, fun hw => by simp at hw, ?_, fun hw => by simp at hw⟩, Or.inl rfl⟩
      · dsimp only
        rcases h2 with h2 | h2 <;> rw [h2] <;> decide
      · dsimp only
        rw [h3 c.2.2]; simp
    · have e : s.HandleRead p = s := by
        simp only [SWSender.HandleRead]
        split_ifs with c1 c2
        · rfl
        · exact absurd ⟨c1, c2⟩ c
        · rfl
      rw [e]
      exact ⟨⟨h1, h2, h3, h4, h5⟩, Or.inl rfl⟩
  | timeout =>
    simp only [SWSender.step] at h
    split_ifs at h with c
    simp only [Option.some.injEq] at h
    subst h
    have hw : s.m_waitingAck = true := by rw [← h1]; exact c
    refine ⟨⟨?_, h2, ?_, h4, ?_⟩, Or.inr ⟨rfl, ?_, rfl⟩⟩
    · simp [SWSender.fireTimeout, SWSender.Timeout, hw]
    · intro _; exact h3 hw
    · intro _; simp [SWSender.fireTimeout, SWSender.Timeout]
    · simp [SWSender.fireTimeout, SWSender.Timeout, hw]
  | sendNew =>
    simp only [SWSender.step] at h
    split_ifs at h with c
    simp only [Option.some.injEq] at h
    subst h
    have hw : s.m_waitingAck = false := by
      cases hq : s.m_waitingAck with
      | false => rfl
      | true => exact absurd (h3 hq) c
    have htail : s.pendingSend.tail = [] := by
      cases hp : s.pendingSend with
      | nil => rfl
      | cons a l =>
        rw [hp] at h4
        cases l with
        | nil => rfl
        | cons b l2 => simp at h4
    have := SWSender.SendNewPacket_inv { s with pendingSend := s.pendingSend.tail } h1 h2 htail
      (fun hq => by simp [hw] at hq)
    exact this

theorem SWSender.sw_run_inv : ∀ (evs : List SwEvent) (s t : SWSender),
    s.Inv → SWSender.run s evs = some t → t.Inv := by
  intro evs
  induction evs with
  | nil =>
    intro s t hs h
    simp only [SWSender.run, Option.some.injEq] at h
    exact h ▸ hs
  | cons e es ih =>
    intro s t hs h
    simp only [SWSender.run, Option.bind_eq_some] at h
    obtain ⟨u, hu, hrest⟩ := h
    exact ih u t (SWSender.step_inv s u e hs hu).1 hrest

/-- C11. Stop-and-Wait single outstanding packet.  In every state reached from
`StartApplication` by `HandleRead` on arbitrary packets, firings of the running timer and
executions of a pending `SendNewPacket`: the timer runs if and only if `m_waitingAck`; at most
one `SendNewPacket` is pending, and none while `m_waitingAck`; `m_seq` is 0 or 1; while
`m_waitingAck` the last packet sent carries `m_seq`; and every further event sends nothing or
sends one packet carrying the unchanged `m_seq` and leaves `m_waitingAck` true. -/
theorem SWSender.single_outstanding (timeout totalPackets interPacket : Nat)
    (evs : List SwEvent) (s : SWSender)
    (h : SWSender.run (SWSender.Setup timeout totalPackets interPacket).StartApplication evs
      = some s) :
    (s.m_retxEvent = true ↔ s.m_waitingAck = true) ∧
    s.pendingSend.length ≤ 1 ∧
    (s.m_waitingAck = true → s.pendingSend = []) ∧
    (s.m_seq = 0 ∨ s.m_seq = 1) ∧
    (s.m_waitingAck = true → s.sent.getLast? = some (encodeU32 s.m_seq ++ payloadDATA)) ∧
    (∀ e t, s.step e = some t →
      t.sent = s.sent ∨
      (t.sent = s.sent ++ [encodeU32 t.m_seq ++ payloadDATA] ∧ t.m_waitingAck = true ∧
        t.m_seq = s.m_seq)) := by
  have h0 : (SWSender.Setup timeout totalPackets interPacket).StartApplication.Inv :=
    (SWSender.SendNewPacket_inv _ rfl (Or.inl rfl) rfl (fun hq => by
      simp [SWSender.Setup] at hq)).1
  have hinv := SWSender.sw_run_inv evs _ s h0 h
  have hstep := fun e t ht => (SWSender.step_inv s t e hinv ht).2
  obtain ⟨h1, h2, h3, h4, h5⟩ := hinv
  exact ⟨by rw [h1], h4, h3, h2, h5, hstep⟩

/-- Witness for C11: six packets; a timeout, the ack of bit 0, a duplicate of it, the scheduled
`SendNewPacket`, and a stale ack of bit 0. -/
theorem SWSender.single_outstanding_witness :
    SWSender.run (SWSender.Setup 500 6 200).StartApplication
        [SwEvent.timeout, SwEvent.read [0, 0, 0, 0], SwEvent.read [0, 0, 0, 0],
         SwEvent.sendNew, SwEvent.read [0, 0, 0, 0]]
      = some ⟨1, 1, 6, true, true, 500, 200, [],
          [[0, 0, 0, 0, 68, 65, 84, 65], [0, 0, 0, 0, 68, 65, 84, 65],
           [1, 0, 0, 0, 68, 65, 84, 65]]⟩ ∧
    ((true = true) ↔ (true = true)) :=
  ⟨by decide,
   (SWSender.single_outstanding 500 6 200
      [SwEvent.timeout, SwEvent.read [0, 0, 0, 0], SwEvent.read [0, 0, 0, 0],
       SwEvent.sendNew, SwEvent.read [0, 0, 0, 0]]
      ⟨1, 1, 6, true, true, 500, 200, [],
        [[0, 0, 0, 0, 68, 65, 84, 65], [0, 0, 0, 0, 68, 65, 84, 65],
         [1, 0, 0, 0, 68, 65, 84, 65]]⟩ (by decide)).1⟩

/-! ## Go-Back-N: what a timeout resends -/

theorem GoBackNSender.sendLoop_sent (fuel : Nat) (s : GoBackNSender) :
    s.m_nextSeq ≤ (GoBackNSender.sendLoop fuel s).m_nextSeq ∧
    (GoBackNSender.sendLoop fuel s).sent =
      s.sent ++ List.range' s.m_nextSeq ((GoBackNSender.sendLoop fuel s).m_nextSeq - s.m_nextSeq) := by
  induction fuel generalizing s with
  | zero => simp [GoBackNSender.sendLoop]
  | succ n ih =>
    simp only [GoBackNSender.sendLoop]
    split_ifs with hc
    · simp only [GoBackNSender.canSend, u32add] at hc
      have e : u32add s.m_nextSeq 1 = s.m_nextSeq + 1 := by
        simp only [u32add]; omega
      rw [e]
      obtain ⟨h1, h2⟩ :=
        ih { s with sent := s.sent ++ [s.m_nextSeq], m_nextSeq := s.m_nextSeq + 1 }
      dsimp only at h1 h2
      refine ⟨by omega, ?_⟩
      rw [h2]
      have e2 : (GoBackNSender.sendLoop n
          { s with sent := s.sent ++ [s.m_nextSeq], m_nextSeq := s.m_nextSeq + 1 }).m_nextSeq
            - s.m_nextSeq
          = ((GoBackNSender.sendLoop n
          { s with sent := s.sent ++ [s.m_nextSeq], m_nextSeq := s.m_nextSeq + 1 }).m_nextSeq
            - (s.m_nextSeq + 1)) + 1 := by omega
      rw [e2, List.range'_succ, List.append_assoc]
      rfl
    · simp

/-- Postcondition of `SendWindow` when `m_base + m_windowSize` cannot wrap: the window is
filled, the packets sent are the sequence numbers from the old `m_nextSeq` up to the new one,
and the timer runs. -/
theorem GoBackNSender.SendWindow_fill (n w : Nat) (s : GoBackNSender)
    (hsum : n + w ≤ 4294967296) (hn : s.m_totalPackets = n) (hw : s.m_windowSize = w)
    (hb : s.m_base ≤ s.m_nextSeq) (hle : s.m_nextSeq ≤ n) (hwin : s.m_nextSeq ≤ s.m_base + w) :
    GoBackNSender.WindowInv n w s.SendWindow ∧
    s.SendWindow.m_base = s.m_base ∧
    s.m_nextSeq ≤ s.SendWindow.m_nextSeq ∧
    s.SendWindow.sent =
      s.sent ++ List.range' s.m_nextSeq (s.SendWindow.m_nextSeq - s.m_nextSeq) ∧
    s.SendWindow.m_timeoutEvent = true := by
  obtain ⟨f1, f2, f3, f4, f5⟩ := GoBackNSender.SendWindow_frame s
  obtain ⟨g1, g2, g3, g4⟩ := GoBackNSender.gbn_sendLoop_frame (s.m_totalPackets - s.m_nextSeq) s
  obtain ⟨x1, x2, x3, -⟩ := GoBackNSender.sendLoop_exit (s.m_totalPackets - s.m_nextSeq) s
    (le_refl _)
  obtain ⟨-, y2⟩ := GoBackNSender.sendLoop_sent (s.m_totalPackets - s.m_nextSeq) s
  have y1 := GoBackNSender.sendLoop_window (s.m_totalPackets - s.m_nextSeq) s (by omega)
  simp only [GoBackNSender.canSend, u32add, g1, g2, g3] at x1
  have hsent : s.SendWindow.sent = (GoBackNSender.sendLoop (s.m_totalPackets - s.m_nextSeq) s).sent := by
    simp only [GoBackNSender.SendWindow]
    split_ifs <;> rfl
  refine ⟨⟨f1.trans hn, f2.trans hw, ?_, ?_, ?_, ?_⟩, f3, ?_, ?_, f5⟩
  · rw [f3, f4]; omega
  · rw [f4]; omega
  · rw [f3, f4]; omega
  · rw [f3, f4]; omega
  · rw [f4]; omega
  · rw [hsent, f4]; exact y2

theorem GoBackNSender.SendWindow_windowInv (n w : Nat) (s : GoBackNSender)
    (hsum : n + w ≤ 4294967296) (hn : s.m_totalPackets = n) (hw : s.m_windowSize = w)
    (hb : s.m_base ≤ s.m_nextSeq) (hle : s.m_nextSeq ≤ n) (hwin : s.m_nextSeq ≤ s.m_base + w) :
    GoBackNSender.WindowInv n w s.SendWindow :=
  (GoBackNSender.SendWindow_fill n w s hsum hn hw hb hle hwin).1

theorem GoBackNSender.step_windowInv (n w : Nat) (hsum : n + w ≤ 4294967296)
    (s : GoBackNSender) (e : GbnEvent) (hg : GoBackNSender.ackSent s e = true)
    (h : GoBackNSender.WindowInv n w s) : GoBackNSender.WindowInv n w (s.step e) := by
  obtain ⟨hn, hw, hb, hle, hwin, hfull⟩ := h
  cases e with
  | timeout =>
    simp only [GoBackNSender.step, GoBackNSender.fireTimeout, GoBackNSender.Timeout]
    exact GoBackNSender.SendWindow_windowInv n w _ hsum hn hw (le_refl _)
      (by dsimp only; omega) (by dsimp only; omega)
  | ack a =>
    simp only [GoBackNSender.ackSent, decide_eq_true_eq] at hg
    simp only [GoBackNSender.step, GoBackNSender.HandleAck, u32add]
    by_cases h1 : s.m_base ≤ a
    · have ha : (a + 1) % 4294967296 = a + 1 := Nat.mod_eq_of_lt (by omega)
      rw [if_pos h1, ha]
      split_ifs with h2 h3 h4
      · exact GoBackNSender.SendWindow_windowInv n w _ hsum hn hw (by dsimp only; omega)
          hle (by dsimp only; omega)
      · exact ⟨hn, hw, by dsimp only; omega, hle, by dsimp only; omega,
          by dsimp only at h3 ⊢; omega⟩
      · exact GoBackNSender.SendWindow_windowInv n w _ hsum hn hw (by dsimp only; omega)
          hle (by dsimp only; omega)
      · dsimp only at h4
        omega
    · rw [if_neg h1]
      split_ifs with h5
      · exact GoBackNSender.SendWindow_windowInv n w _ hsum hn hw hb hle hwin
      · exact ⟨hn, hw, hb, hle, hwin, hfull⟩

/-- C12, as stated, fails.  With `totalPackets = 10` and `windowSize = 4294967295`, after
`StartApplication` and ack 0 the sender has `m_base = 1` and `m_nextSeq = 10`; a timeout then
resends nothing and leaves `m_nextSeq = 1`, because the loop guard compares with
`(1 + 4294967295) mod 2^32 = 0`. -/
theorem GoBackNSender.timeout_resend_counterexample :
    (GoBackNSender.run GoBackNSender.ackSent (GoBackNSender.Setup 10 4294967295).StartApplication
        [GbnEvent.ack 0]
      = some ⟨10, 4294967295, 1, 10, true, [0, 1, 2, 3, 4, 5, 6, 7, 8, 9]⟩) ∧
    (⟨10, 4294967295, 1, 10, true, [0, 1, 2, 3, 4, 5, 6, 7, 8, 9]⟩ : GoBackNSender).fireTimeout
      = ⟨10, 4294967295, 1, 1, true, [0, 1, 2, 3, 4, 5, 6, 7, 8, 9]⟩ ∧
    ¬ (∀ (totalPackets windowSize : Nat) (evs : List GbnEvent) (s : GoBackNSender),
        totalPackets < 4294967296 → windowSize < 4294967296 →
        GoBackNSender.run GoBackNSender.ackSent
          (GoBackNSender.Setup totalPackets windowSize).StartApplication evs = some s →
        s.fireTimeout.sent = s.sent ++ List.range' s.m_base (s.m_nextSeq - s.m_base) ∧
        s.fireTimeout.m_base = s.m_base ∧ s.fireTimeout.m_nextSeq = s.m_nextSeq ∧
        s.fireTimeout.m_timeoutEvent = true) := by
  have hrun : GoBackNSender.run GoBackNSender.ackSent
      (GoBackNSender.Setup 10 4294967295).StartApplication [GbnEvent.ack 0]
      = some ⟨10, 4294967295, 1, 10, true, [0, 1, 2, 3, 4, 5, 6, 7, 8, 9]⟩ := by decide
  have hfire : (⟨10, 4294967295, 1, 10, true, [0, 1, 2, 3, 4, 5, 6, 7, 8, 9]⟩ :
      GoBackNSender).fireTimeout
      = ⟨10, 4294967295, 1, 1, true, [0, 1, 2, 3, 4, 5, 6, 7, 8, 9]⟩ := by decide
  refine ⟨hrun, hfire, fun hall => ?_⟩
  have := (hall 10 4294967295 [GbnEvent.ack 0] _ (by decide) (by decide) hrun).2.2.1
  rw [hfire] at this
  simp at this

/-- C12 (amended). Go-Back-N timeout resends the outstanding window.  With
`totalPackets + windowSize ≤ 2^32`, in every state reached from `StartApplication` by timeouts
and by acks of sequence numbers already sent, a timeout sends exactly the sequence numbers
`m_base, m_base + 1, ..., n - 1` in increasing order, `n` being `m_nextSeq` before the timeout,
keeps `m_base`, ends with `m_nextSeq = n` and leaves the timer running; the same holds for the
body `Timeout` whatever the timer state. -/
theorem GoBackNSender.timeout_resend (totalPackets windowSize : Nat) (evs : List GbnEvent)
    (s : GoBackNSender) (hsum : totalPackets + windowSize ≤ 4294967296)
    (h : GoBackNSender.run GoBackNSender.ackSent
      (GoBackNSender.Setup totalPackets windowSize).StartApplication evs = some s) :
    (s.fireTimeout.sent = s.sent ++ List.range' s.m_base (s.m_nextSeq - s.m_base) ∧
      s.fireTimeout.m_base = s.m_base ∧ s.fireTimeout.m_nextSeq = s.m_nextSeq ∧
      s.fireTimeout.m_timeoutEvent = true) ∧
    (s.Timeout.sent = s.sent ++ List.range' s.m_base (s.m_nextSeq - s.m_base) ∧
      s.Timeout.m_base = s.m_base ∧ s.Timeout.m_nextSeq = s.m_nextSeq ∧
      s.Timeout.m_timeoutEvent = true) := by
  have key : GoBackNSender.WindowInv totalPackets windowSize s := by
    refine GoBackNSender.run_invariant GoBackNSender.ackSent
      (GoBackNSender.WindowInv totalPackets windowSize)
      (fun t e hg ht => GoBackNSender.step_windowInv totalPackets windowSize hsum t e hg ht)
      evs _ s ?_ h
    exact (GoBackNSender.SendWindow_fill totalPackets windowSize _ hsum rfl rfl (le_refl _)
      (by simp [GoBackNSender.Setup]) (by simp [GoBackNSender.Setup])).1
  obtain ⟨hn, hw, hb, hle, hwin, hfull⟩ := key
  have main : ∀ flag : Bool,
      let t := GoBackNSender.SendWindow
        { s with m_timeoutEvent := flag, m_nextSeq := s.m_base }
      t.sent = s.sent ++ List.range' s.m_base (s.m_nextSeq - s.m_base) ∧
      t.m_base = s.m_base ∧ t.m_nextSeq = s.m_nextSeq ∧ t.m_timeoutEvent = true := by
    intro flag
    obtain ⟨⟨-, -, q3, q4, q5, q6⟩, p2, p3, p4, p5⟩ :=
      GoBackNSender.SendWindow_fill totalPackets windowSize
        { s with m_timeoutEvent := flag, m_nextSeq := s.m_base } hsum hn hw (le_refl _)
        (by dsimp only; omega) (by dsimp only; omega)
    dsimp only at p2 p3 p4 p5 q3 q4 q5 q6 ⊢
    rw [p2] at q3 q5 q6
    have e : (GoBackNSender.SendWindow
        { s with m_timeoutEvent := flag, m_nextSeq := s.m_base }).m_nextSeq = s.m_nextSeq := by
      omega
    rw [e] at p4
    exact ⟨p4, p2, e, p5⟩
  exact ⟨main false, main s.m_timeoutEvent⟩

/-- Witness for C12 (amended): ten packets, window four; after ack 1 the window is 2..5 and a
timeout resends 2, 3, 4, 5. -/
theorem GoBackNSender.timeout_resend_witness :
    (10 : Nat) + 4 ≤ 4294967296 ∧
    GoBackNSender.run GoBackNSender.ackSent (GoBackNSender.Setup 10 4).StartApplication
        [GbnEvent.ack 1] = some ⟨10, 4, 2, 6, true, [0, 1, 2, 3, 4, 5]⟩ ∧
    (⟨10, 4, 2, 6, true, [0, 1, 2, 3, 4, 5]⟩ : GoBackNSender).fireTimeout.sent
      = [0, 1, 2, 3, 4, 5] ++ List.range' 2 (6 - 2) :=
  ⟨by decide, by decide,
   (GoBackNSender.timeout_resend 10 4 [GbnEvent.ack 1] ⟨10, 4, 2, 6, true, [0, 1, 2, 3, 4, 5]⟩
      (by decide) (by decide)).1.1⟩

/-! ## Selective-Repeat: effect of one timeout and of one ack -/

/-- C13. Selective-Repeat timeout is per packet.  For every sender state and every `seq`:
when `seq` is not acknowledged, `Timeout seq` sends exactly one packet carrying `seq` and
stores a running timer under `seq`; when `seq` is acknowledged it sends nothing and changes
nothing.  In both cases `m_base`, `m_ackedPackets` and the timer entries of all other sequence
numbers are unchanged.  The same holds when the scheduler fires the timer of `seq`, where in
the acknowledged case the entry of `seq` is left expired. -/
theorem SelectiveSender.Timeout_per_packet (s : SelectiveSender) (seq : Nat) :
    (seq ∉ s.m_ackedPackets →
      (s.Timeout seq).sent = s.sent ++ [seq] ∧ (s.Timeout seq).m_timers seq = some true ∧
      (s.fireTimeout seq).sent = s.sent ++ [seq] ∧
      (s.fireTimeout seq).m_timers seq = some true) ∧
    (seq ∈ s.m_ackedPackets →
      s.Timeout seq = s ∧ (s.fireTimeout seq).sent = s.sent ∧
      (s.fireTimeout seq).m_timers seq = some false) ∧
    ((s.Timeout seq).m_base = s.m_base ∧
      (s.Timeout seq).m_ackedPackets = s.m_ackedPackets ∧
      ∀ k, k ≠ seq → (s.Timeout seq).m_timers k = s.m_timers k) ∧
    ((s.fireTimeout seq).m_base = s.m_base ∧
      (s.fireTimeout seq).m_ackedPackets = s.m_ackedPackets ∧
      ∀ k, k ≠ seq → (s.fireTimeout seq).m_timers k = s.m_timers k) := by
  by_cases h : seq ∈ s.m_ackedPackets
  · have e1 : s.Timeout seq = s := by
      simp only [SelectiveSender.Timeout, h, not_true_eq_false, if_false]
    have e2 : s.fireTimeout seq
        = { s with m_timers := Function.update s.m_timers seq (some false) } := by
      simp only [SelectiveSender.fireTimeout, SelectiveSender.Timeout, h, not_true_eq_false,
        if_false]
    rw [e1, e2]
    refine ⟨fun hn => absurd h hn, fun _ => ⟨rfl, rfl, by simp⟩, ⟨rfl, rfl, fun _ _ => rfl⟩,
      rfl, rfl, fun k hk => ?_⟩
    exact Function.update_noteq hk _ _
  · have e1 : s.Timeout seq
        = { s with sent := s.sent ++ [seq],
                   m_timers := Function.update s.m_timers seq (some true) } := by
      simp only [SelectiveSender.Timeout, h, not_false_eq_true, if_true,
        SelectiveSender.SendPacket]
    have e2 : s.fireTimeout seq
        = { s with sent := s.sent ++ [seq],
                   m_timers := Function.update (Function.update s.m_timers seq (some false))
                     seq (some true) } := by
      simp only [SelectiveSender.fireTimeout, SelectiveSender.Timeout, h, not_false_eq_true,
        if_true, SelectiveSender.SendPacket]
    rw [e1, e2]
    refine ⟨fun _ => ⟨rfl, by simp, rfl, by simp⟩, fun hn => absurd hn h,
      ⟨rfl, rfl, fun k hk => ?_⟩, rfl, rfl, fun k hk => ?_⟩
    · exact Function.update_noteq hk _ _
    · dsimp only
      rw [Function.update_noteq hk, Function.update_noteq hk]

/-- Witness for C13: in the state after `StartApplication` (ten packets, window four) the
timer of sequence number 2 fires. -/
theorem SelectiveSender.Timeout_per_packet_witness :
    ((SelectiveSender.Setup 1024 10 4).StartApplication.fireTimeout 2).sent
      = (SelectiveSender.Setup 1024 10 4).StartApplication.sent ++ [2] :=
  ((SelectiveSender.Timeout_per_packet (SelectiveSender.Setup 1024 10 4).StartApplication 2).1
    (by decide)).2.2.1

/-- Effect of the `for` loop of `SendWindow`: it sends a list `l` of sequence numbers that were
neither acknowledged nor had a timer entry, stores a running timer under each of them and
leaves every other timer entry as it was. -/
theorem SelectiveSender.sendLoop_effect (fuel i : Nat) (s : SelectiveSender) :
    ∃ l : List Nat, (SelectiveSender.sendLoop fuel i s).sent = s.sent ++ l ∧
      (∀ k, k ∈ l → k ∉ s.m_ackedPackets ∧ s.m_timers k = none) ∧
      (∀ k, (SelectiveSender.sendLoop fuel i s).m_timers k
        = if k ∈ l then some true else s.m_timers k) := by
  induction fuel generalizing i s with
  | zero =>
    exact ⟨[], by simp [SelectiveSender.sendLoop], by simp, by simp [SelectiveSender.sendLoop]⟩
  | succ n ih =>
    simp only [SelectiveSender.sendLoop]
    split_ifs with h1 h2
    · obtain ⟨l, a1, a2, a3⟩ := ih (u32add i 1) (s.SendPacket i)
      refine ⟨i :: l, ?_, ?_, ?_⟩
      · rw [a1]; simp [SelectiveSender.SendPacket]
      · intro k hk
        rcases List.mem_cons.mp hk with hk | hk
        · subst hk; exact h2
        · have := a2 k hk
          simp only [SelectiveSender.SendPacket] at this
          refine ⟨this.1, ?_⟩
          by_cases hki : k = i
          · subst hki; simp at this
          · rw [Function.update_noteq hki] at this
            exact this.2
      · intro k
        rw [a3 k]
        simp only [SelectiveSender.SendPacket, List.mem_cons]
        by_cases hkl : k ∈ l
        · simp [hkl]
        · by_cases hki : k = i
          · subst hki; simp
          · simp [hkl, hki, Function.update_noteq hki]
    · exact ih (u32add i 1) s
    · exact ⟨[], by simp, by simp, by simp⟩

/-- C14. Selective-Repeat ack is selective.  For every sender state and every ack value `S`:
`HandleAck S` returns unless every `uint32_t` value is then acknowledged; when it returns, the
acknowledged set is the old one with `S` added, `S` has no timer entry, every `K ≠ S` that had
a timer entry keeps that entry, and the packets sent by the call are sequence numbers other
than `S` that had no timer entry and are not acknowledged. -/
theorem SelectiveSender.HandleAck_selective (s : SelectiveSender) (S : Nat) :
    (s.m_base < 4294967296 → ∀ n, n < 4294967296 → n ∉ insert S s.m_ackedPackets →
      (s.HandleAck S).isSome = true) ∧
    (∀ t, s.HandleAck S = some t →
      S ∈ t.m_ackedPackets ∧ t.m_ackedPackets = insert S s.m_ackedPackets ∧
      t.m_timers S = none ∧
      (∀ K, K ≠ S → s.m_timers K ≠ none → t.m_timers K = s.m_timers K) ∧
      ∃ l : List Nat, t.sent = s.sent ++ l ∧
        ∀ k, k ∈ l → k ≠ S ∧ s.m_timers k = none ∧ k ∉ insert S s.m_ackedPackets) := by
  refine ⟨fun hb n hn hna => SelectiveSender.HandleAck_returns s S n hb hn hna, ?_⟩
  intro t ht
  rw [SelectiveSender.HandleAck_eq, Option.map_eq_some'] at ht
  obtain ⟨b, -, ht⟩ := ht
  obtain ⟨e1, e2⟩ := SelectiveSender.erase_timer s.m_timers S
  obtain ⟨l, a1, a2, a3⟩ := SelectiveSender.sendLoop_effect (s.m_totalPackets - b) b
    { s with m_ackedPackets := insert S s.m_ackedPackets,
             m_timers := if s.m_timers S ≠ none then Function.update s.m_timers S none
                         else s.m_timers,
             m_base := b }
  obtain ⟨-, -, -, f4, -⟩ := SelectiveSender.sr_sendLoop_frame (s.m_totalPackets - b) b
    { s with m_ackedPackets := insert S s.m_ackedPackets,
             m_timers := if s.m_timers S ≠ none then Function.update s.m_timers S none
                         else s.m_timers,
             m_base := b }
  subst ht
  dsimp only at a1 a2 a3 f4
  have hSl : S ∉ l := fun hS => (a2 S hS).1 (Finset.mem_insert_self _ _)
  refine ⟨?_, f4, ?_, ?_, l, a1, ?_⟩
  · show S ∈ (SelectiveSender.sendLoop _ _ _).m_ackedPackets
    rw [f4]; exact Finset.mem_insert_self _ _
  · show (SelectiveSender.sendLoop _ _ _).m_timers S = none
    rw [a3 S, if_neg hSl]; exact e1
  · intro K hK hKt
    show (SelectiveSender.sendLoop _ _ _).m_timers K = _
    have hKl : K ∉ l := by
      intro hKl
      have := (a2 K hKl).2
      rw [e2 K hK] at this
      exact hKt this
    rw [a3 K, if_neg hKl, e2 K hK]
  · intro k hk
    have hkS : k ≠ S := fun h => hSl (h ▸ hk)
    obtain ⟨q1, q2⟩ := a2 k hk
    rw [e2 k hkS] at q2
    exact ⟨hkS, q2, q1⟩

/-- Witness for C14: ten packets, window four; the ack of sequence number 1 arrives first. -/
theorem SelectiveSender.HandleAck_selective_witness :
    ∃ t, (SelectiveSender.Setup 1024 10 4).StartApplication.HandleAck 1 = some t ∧
      t.m_ackedPackets = {1} ∧ t.sent = [0, 1, 2, 3] ∧
      (List.range 6).map t.m_timers = [some true, none, some true, some true, none, none] ∧
      t.m_timers 1 = none :=
  ⟨((SelectiveSender.Setup 1024 10 4).StartApplication.HandleAck 1).get (by decide),
   (Option.some_get _).symm, by decide, by decide, by decide,
   ((SelectiveSender.HandleAck_selective (SelectiveSender.Setup 1024 10 4).StartApplication 1).2
      _ (Option.some_get _).symm).2.2.1⟩

/-! ## Acks outside the window -/

theorem GoBackNSender.sendLoop_noop (fuel : Nat) (s : GoBackNSender) (h : ¬ s.canSend) :
    GoBackNSender.sendLoop fuel s = s := by
  cases fuel with
  | zero => rfl
  | succ n => simp only [GoBackNSender.sendLoop, if_neg h]

theorem GoBackNSender.SendWindow_settled (s : GoBackNSender) : ¬ s.SendWindow.canSend := by
  obtain ⟨x1, -, -, -⟩ := GoBackNSender.sendLoop_exit (s.m_totalPackets - s.m_nextSeq) s
    (le_refl _)
  simp only [GoBackNSender.SendWindow]
  split_ifs
  · exact x1
  · exact x1

theorem GoBackNSender.step_settled (s : GoBackNSender) (e : GbnEvent) :
    (s.step e).Settled := by
  cases e with
  | timeout =>
    intro _
    exact GoBackNSender.SendWindow_settled _
  | ack a =>
    simp only [GoBackNSender.step, GoBackNSender.HandleAck]
    split_ifs with h1 h2 h3 h4 h5
    · exact fun _ => GoBackNSender.SendWindow_settled _
    · exact fun hlt => absurd hlt h3
    · exact fun _ => GoBackNSender.SendWindow_settled _
    · exact fun hlt => absurd hlt h4
    · exact fun _ => GoBackNSender.SendWindow_settled _
    · exact fun hlt => absurd hlt h5

theorem GoBackNSender.reach_settled (totalPackets windowSize : Nat) (evs : List GbnEvent)
    (s : GoBackNSender)
    (h : GoBackNSender.run GoBackNSender.anyEvent
      (GoBackNSender.Setup totalPackets windowSize).StartApplication evs = some s) :
    s.Settled :=
  GoBackNSender.run_invariant GoBackNSender.anyEvent GoBackNSender.Settled
    (fun t e _ _ => GoBackNSender.step_settled t e) evs _ s
    (fun _ => GoBackNSender.SendWindow_settled _) h

/-- C15, as stated, fails.  Ten packets, window four: after `StartApplication` the sender has
`m_base = 0` and `m_nextSeq = 4`.  The ack 7 names a sequence number never sent, yet
`HandleAck 7` sets `m_base` to 8, sends 4..9 and ends with `m_nextSeq = 10`. -/
theorem GoBackNSender.ack_outside_counterexample :
    (GoBackNSender.Setup 10 4).StartApplication = ⟨10, 4, 0, 4, true, [0, 1, 2, 3]⟩ ∧
    (GoBackNSender.Setup 10 4).StartApplication.HandleAck 7
      = ⟨10, 4, 8, 10, true, [0, 1, 2, 3, 4, 5, 6, 7, 8, 9]⟩ ∧
    ¬ (∀ (totalPackets windowSize : Nat) (evs : List GbnEvent) (s : GoBackNSender) (A : Nat),
        GoBackNSender.run GoBackNSender.liveAndSent
          (GoBackNSender.Setup totalPackets windowSize).StartApplication evs = some s →
        A < 4294967296 → (A < s.m_base ∨ s.m_nextSeq ≤ A) →
        (s.HandleAck A).m_base = s.m_base ∧ (s.HandleAck A).m_nextSeq = s.m_nextSeq ∧
        (s.HandleAck A).sent = s.sent) := by
  refine ⟨by decide, by decide, fun hall => ?_⟩
  have := (hall 10 4 [] _ 7 rfl (by decide) (Or.inr (by decide))).1
  revert this
  decide

/-- C15 (amended). Go-Back-N sender and acks outside the window.  In every state reached from
`StartApplication` by any timeouts and acks, an ack `A < m_base` leaves `m_base` and
`m_nextSeq` unchanged and sends no packet; an ack `A ≥ m_base`, also one that names a sequence
number never sent, sets `m_base` to `A + 1` (in `uint32_t`). -/
theorem GoBackNSender.ack_below_base_ignored (totalPackets windowSize : Nat)
    (evs : List GbnEvent) (s : GoBackNSender) (A : Nat)
    (h : GoBackNSender.run GoBackNSender.anyEvent
      (GoBackNSender.Setup totalPackets windowSize).StartApplication evs = some s) :
    (A < s.m_base →
      (s.HandleAck A).m_base = s.m_base ∧ (s.HandleAck A).m_nextSeq = s.m_nextSeq ∧
      (s.HandleAck A).sent = s.sent) ∧
    (s.m_base ≤ A → (s.HandleAck A).m_base = u32add A 1) := by
  have hs := GoBackNSender.reach_settled totalPackets windowSize evs s h
  constructor
  · intro hA
    have h' : ¬ s.m_base ≤ A := by omega
    simp only [GoBackNSender.HandleAck, if_neg h']
    split_ifs with h5
    · have e := GoBackNSender.sendLoop_noop (s.m_totalPackets - s.m_nextSeq) s (hs h5)
      simp only [GoBackNSender.SendWindow, e]
      split_ifs <;> exact ⟨rfl, rfl, rfl⟩
    · exact ⟨rfl, rfl, rfl⟩
  · intro hA
    simp only [GoBackNSender.HandleAck, if_pos hA]
    split_ifs <;> first | rfl | rw [(GoBackNSender.SendWindow_frame _).2.2.1]

/-- Witness for C15 (amended): ten packets, window four; after acks 0 and 1 a duplicate of
ack 0 changes nothing. -/
theorem GoBackNSender.ack_below_base_ignored_witness :
    GoBackNSender.run GoBackNSender.anyEvent (GoBackNSender.Setup 10 4).StartApplication
        [GbnEvent.ack 0, GbnEvent.ack 1] = some ⟨10, 4, 2, 6, true, [0, 1, 2, 3, 4, 5]⟩ ∧
    ((⟨10, 4, 2, 6, true, [0, 1, 2, 3, 4, 5]⟩ : GoBackNSender).HandleAck 0).sent
      = [0, 1, 2, 3, 4, 5] :=
  ⟨by decide,
   ((GoBackNSender.ack_below_base_ignored 10 4 [GbnEvent.ack 0, GbnEvent.ack 1]
      ⟨10, 4, 2, 6, true, [0, 1, 2, 3, 4, 5]⟩ 0 (by decide)).1 (by decide)).2.2⟩

theorem SelectiveSender.fireTimeout_eq (s : SelectiveSender) (seq : Nat) :
    (seq ∈ s.m_ackedPackets →
      s.fireTimeout seq = { s with m_timers := Function.update s.m_timers seq (some false) }) ∧
    (seq ∉ s.m_ackedPackets →
      s.fireTimeout seq =
        { s with sent := s.sent ++ [seq],
                 m_timers := Function.update (Function.update s.m_timers seq (some false))
                   seq (some true) }) := by
  constructor
  · intro h
    simp only [SelectiveSender.fireTimeout, SelectiveSender.Timeout, h, not_true_eq_false,
      if_false]
  · intro h
    simp only [SelectiveSender.fireTimeout, SelectiveSender.Timeout, h, not_false_eq_true,
      if_true, SelectiveSender.SendPacket]

theorem SelectiveSender.fireTimeout_frame (s : SelectiveSender) (seq : Nat) :
    (s.fireTimeout seq).m_base = s.m_base ∧
    (s.fireTimeout seq).m_ackedPackets = s.m_ackedPackets ∧
    (s.fireTimeout seq).m_windowSize = s.m_windowSize ∧
    (s.fireTimeout seq).m_totalPackets = s.m_totalPackets ∧
    (s.fireTimeout seq).m_timers seq ≠ none ∧
    (∀ k, k ≠ seq → (s.fireTimeout seq).m_timers k = s.m_timers k) := by
  obtain ⟨e1, e2⟩ := SelectiveSender.fireTimeout_eq s seq
  by_cases h : seq ∈ s.m_ackedPackets
  · rw [e1 h]
    exact ⟨rfl, rfl, rfl, rfl, by simp, fun k hk => Function.update_noteq hk _ _⟩
  · rw [e2 h]
    refine ⟨rfl, rfl, rfl, rfl, by simp, fun k hk => ?_⟩
    dsimp only
    rw [Function.update_noteq hk, Function.update_noteq hk]

theorem SelectiveSender.sr_sendLoop_noop (fuel i : Nat) (s : SelectiveSender)
    (h : ∀ k, i ≤ k → k < u32add s.m_base s.m_windowSize → k < s.m_totalPackets →
      k ∈ s.m_ackedPackets ∨ s.m_timers k ≠ none) :
    SelectiveSender.sendLoop fuel i s = s := by
  induction fuel generalizing i with
  | zero => rfl
  | succ n ih =>
    simp only [SelectiveSender.sendLoop]
    split_ifs with h1 h2
    · rcases h i (le_refl _) h1.1 h1.2 with hk | hk
      · exact absurd hk h2.1
      · exact absurd h2.2 hk
    · refine ih (u32add i 1) fun k hk => h k ?_
      have hu : u32add s.m_base s.m_windowSize < 4294967296 := by
        simp only [u32add]; omega
      simp only [u32add] at hk ⊢
      omega
    · rfl

theorem SelectiveSender.SendWindow_windowSent (s : SelectiveSender) :
    s.SendWindow.WindowSent := by
  obtain ⟨f1, f2, f3, f4, -⟩ := SelectiveSender.sr_sendLoop_frame (s.m_totalPackets - s.m_base)
    s.m_base s
  intro k h1 h2 h3
  unfold SelectiveSender.SendWindow at h1 h2 h3 ⊢
  rw [f3] at h1
  rw [f3, f2] at h2
  rw [f1] at h3
  rw [f4]
  exact SelectiveSender.sendLoop_complete _ _ s (le_refl _) k h1 h2 h3

theorem SelectiveSender.step_windowSent (s t : SelectiveSender) (e : SrEvent)
    (hs : s.WindowSent) (h : s.step e = some t) : t.WindowSent := by
  cases e with
  | timeout seq =>
    simp only [SelectiveSender.step] at h
    split_ifs at h with hlive
    simp only [Option.some.injEq] at h
    subst h
    obtain ⟨q1, q2, hW1, hW2, hW3, q3⟩ := SelectiveSender.fireTimeout_frame s seq
    intro k h1 h2 h3
    rw [q1] at h1
    rw [q1, hW1] at h2
    rw [hW2] at h3
    rw [q2]
    by_cases hk : k = seq
    · subst hk; exact Or.inr hW3
    · rw [q3 k hk]; exact hs k h1 h2 h3
  | ack a =>
    simp only [SelectiveSender.step] at h
    rw [SelectiveSender.HandleAck_eq, Option.map_eq_some'] at h
    obtain ⟨b, -, ht⟩ := h
    subst ht
    exact SelectiveSender.SendWindow_windowSent _

theorem SelectiveSender.run_windowSent : ∀ (evs : List SrEvent) (s t : SelectiveSender),
    s.WindowSent → SelectiveSender.run s evs = some t → t.WindowSent := by
  intro evs
  induction evs with
  | nil =>
    intro s t hs h
    simp only [SelectiveSender.run, Option.some.injEq] at h
    exact h ▸ hs
  | cons e es ih =>
    intro s t hs h
    simp only [SelectiveSender.run, Option.bind_eq_some] at h
    obtain ⟨u, hu, hrest⟩ := h
    exact ih u t (SelectiveSender.step_windowSent s u e hs hu) hrest

theorem SelectiveSender.advanceBase_stay (acked : Finset Nat) (fuel b : Nat) (hf : 0 < fuel)
    (hb : b ∉ acked) : SelectiveSender.advanceBase acked fuel b = some b := by
  cases fuel with
  | zero => omega
  | succ n => simp only [SelectiveSender.advanceBase, if_neg hb]

/-- In a state that satisfies the invariant and whose window is sent, the ack of an
acknowledged sequence number returns the state unchanged. -/
theorem SelectiveSender.HandleAck_duplicate (s : SelectiveSender) (S : Nat) (hs : s.Inv)
    (hw : s.WindowSent) (hS : S ∈ s.m_ackedPackets) : s.HandleAck S = some s := by
  obtain ⟨-, -, i2, i3, -⟩ := hs
  have ht : s.m_timers S = none := by
    by_contra hne
    exact (i3 S hne).2.1 hS
  have hins : insert S s.m_ackedPackets = s.m_ackedPackets := Finset.insert_eq_of_mem hS
  have hadv : SelectiveSender.advanceBase s.m_ackedPackets 4294967296 s.m_base
      = some s.m_base := SelectiveSender.advanceBase_stay _ _ _ (by omega) i2
  rw [SelectiveSender.HandleAck_eq, hins, hadv]
  simp only [Option.map_some', ht, ne_eq, not_true_eq_false, if_false, Option.some.injEq]
  exact SelectiveSender.sr_sendLoop_noop _ _ s (fun k h1 h2 h3 => hw k h1 h2 h3)

theorem SelectiveSender.reach_windowSent (packetSize totalPackets windowSize : Nat)
    (evs : List SrEvent) (s : SelectiveSender)
    (h : SelectiveSender.run
      (SelectiveSender.Setup packetSize totalPackets windowSize).StartApplication evs = some s) :
    s.WindowSent :=
  SelectiveSender.run_windowSent evs _ s (SelectiveSender.SendWindow_windowSent _) h

/-- C16, as stated, fails.  Ten packets, window four: after `StartApplication` the window is
`[0, 4)`.  The ack 7 lies outside the window, yet `HandleAck 7` adds 7 to `m_ackedPackets`; and
in the run that continues with the acks 0..6, 8 and 9 the sender reaches `m_base = 10` without
ever sending sequence number 7. -/
theorem SelectiveSender.sr_ack_outside_counterexample :
    ((SelectiveSender.Setup 1024 10 4).StartApplication.HandleAck 7).map
        (fun t => (t.m_base, t.m_windowSize, t.m_ackedPackets, t.sent))
      = some (0, 4, {7}, [0, 1, 2, 3]) ∧
    ((SelectiveSender.Setup 1024 10 4).StartApplication.run
        [SrEvent.ack 7, SrEvent.ack 0, SrEvent.ack 1, SrEvent.ack 2, SrEvent.ack 3,
         SrEvent.ack 4, SrEvent.ack 5, SrEvent.ack 6, SrEvent.ack 8, SrEvent.ack 9]).map
        (fun t => (t.m_base, t.sent))
      = some (10, [0, 1, 2, 3, 4, 5, 6, 8, 9]) ∧
    ¬ (∀ (packetSize totalPackets windowSize : Nat) (evs : List SrEvent)
        (s t : SelectiveSender) (S : Nat),
        SelectiveSender.run
          (SelectiveSender.Setup packetSize totalPackets windowSize).StartApplication evs
          = some s →
        S < 4294967296 →
        (S ∈ s.m_ackedPackets ∨ S < s.m_base ∨ s.m_base + s.m_windowSize ≤ S) →
        s.HandleAck S = some t →
        t.m_base = s.m_base ∧ t.m_ackedPackets = s.m_ackedPackets ∧
        (∀ k, t.m_timers k = s.m_timers k) ∧ t.sent = s.sent) := by
  have h1 : ((SelectiveSender.Setup 1024 10 4).StartApplication.HandleAck 7).map
        (fun t => (t.m_base, t.m_windowSize, t.m_ackedPackets, t.sent))
      = some (0, 4, {7}, [0, 1, 2, 3]) := by decide
  refine ⟨h1, by decide, fun hall => ?_⟩
  have hsome : ((SelectiveSender.Setup 1024 10 4).StartApplication.HandleAck 7).isSome
      = true := by decide
  have hget := (Option.some_get hsome).symm
  have := (hall 1024 10 4 [] _ _ 7 rfl (by decide) (Or.inr (Or.inr (by decide))) hget).2.1
  rw [hget] at h1
  simp only [Option.map_some', Option.some.injEq, Prod.mk.injEq] at h1
  rw [h1.2.2.1] at this
  revert this
  decide

/-- C16 (amended). Selective-Repeat sender and duplicate acks.  In every state reached from
`StartApplication` by acks of any value and firings of running timers, the ack of a sequence
number `S` that is already acknowledged (every `S` below `m_base` is) returns with the state
unchanged: `m_base`, `m_ackedPackets`, `m_timers` and the send log are as before.  The ack of
an `S` that is not yet acknowledged, inside or outside the window, adds `S` to
`m_ackedPackets`. -/
theorem SelectiveSender.duplicate_ack_ignored (packetSize totalPackets windowSize : Nat)
    (evs : List SrEvent) (s : SelectiveSender) (S : Nat)
    (h : SelectiveSender.run
      (SelectiveSender.Setup packetSize totalPackets windowSize).StartApplication evs = some s) :
    (S ∈ s.m_ackedPackets → s.HandleAck S = some s) ∧
    (S < s.m_base → S ∈ s.m_ackedPackets) ∧
    (S ∉ s.m_ackedPackets → ∀ t, s.HandleAck S = some t →
      t.m_ackedPackets = insert S s.m_ackedPackets ∧ t.m_ackedPackets ≠ s.m_ackedPackets) := by
  obtain ⟨hinv, -⟩ := SelectiveSender.reach_inv _ _ _ evs s h
  have hw := SelectiveSender.reach_windowSent _ _ _ evs s h
  refine ⟨fun hS => SelectiveSender.HandleAck_duplicate s S hinv hw hS, hinv.2.1 S, ?_⟩
  intro hS t ht
  obtain ⟨-, -, q3, -, -, -⟩ := SelectiveSender.HandleAck_spec s t S hinv ht
  refine ⟨q3, fun heq => hS ?_⟩
  rw [← heq, q3]
  exact Finset.mem_insert_self _ _

/-- Witness for C16 (amended): ten packets, window four; after acks 0 and 2 a duplicate of
ack 2 leaves the state as it is. -/
theorem SelectiveSender.duplicate_ack_ignored_witness :
    ∃ s, SelectiveSender.run (SelectiveSender.Setup 1024 10 4).StartApplication
        [SrEvent.ack 0, SrEvent.ack 2] = some s ∧
      s.m_base = 1 ∧ s.m_ackedPackets = {2, 0} ∧ s.sent = [0, 1, 2, 3, 4] ∧
      s.HandleAck 2 = some s :=
  ⟨(SelectiveSender.run (SelectiveSender.Setup 1024 10 4).StartApplication
      [SrEvent.ack 0, SrEvent.ack 2]).get (by decide),
   (Option.some_get _).symm, by decide, by decide, by decide,
   (SelectiveSender.duplicate_ack_ignored 1024 10 4 [SrEvent.ack 0, SrEvent.ack 2] _ 2
      (Option.some_get _).symm).1 (by decide)⟩

/-! ## Stop-and-Wait: recovery from a lost ack -/

theorem decodeU32_encodeU32_append (n : Nat) (l : List Nat) (h : n < 4294967296) :
    decodeU32 (encodeU32 n ++ l) = n := by
  simp only [decodeU32, encodeU32, List.cons_append, List.nil_append, List.getD_cons_zero,
    List.getD_cons_succ]
  omega

/-- C18. Stop-and-Wait lost-ack recovery.  Let the sender have `m_seq = s` with `s` a bit and
`m_waitingAck` true, and let the receiver have accepted `s` already (`m_expectedSeq = 1 - s`).
The timeout sends the packet with sequence number `s` and payload `"DATA"`, byte for byte the
packet `SendNewPacket` sends for `m_seq = s`, and re-arms the timer.  `SWReceiver::HandleRead`
on that packet sends an ack carrying `s` and keeps `m_expectedSeq`.  `SWSender::HandleRead` on
that ack accepts: `m_seqCount` is incremented (in `uint32_t`), `m_seq` becomes `1 - s` and
`m_waitingAck` becomes false. -/
theorem SWSender.lost_ack_recovery (S : SWSender) (R : SWReceiver)
    (hbit : S.m_seq = 0 ∨ S.m_seq = 1) (hw : S.m_waitingAck = true)
    (hr : R.m_expectedSeq = 1 - S.m_seq) :
    (S.fireTimeout.sent = S.sent ++ [encodeU32 S.m_seq ++ payloadDATA] ∧
      S.Timeout.sent = S.sent ++ [encodeU32 S.m_seq ++ payloadDATA] ∧
      decodeU32 (encodeU32 S.m_seq ++ payloadDATA) = S.m_seq ∧
      S.fireTimeout.m_retxEvent = true ∧ S.Timeout.m_retxEvent = true ∧
      (∀ S0 : SWSender, S0.m_seq = S.m_seq → S0.m_waitingAck = false →
        S0.m_seqCount < S0.m_totalPackets →
        S0.SendNewPacket.sent = S0.sent ++ [encodeU32 S.m_seq ++ payloadDATA])) ∧
    ((R.HandleRead (encodeU32 S.m_seq ++ payloadDATA)).sent = R.sent ++ [encodeU32 S.m_seq] ∧
      decodeU32 (encodeU32 S.m_seq) = S.m_seq ∧
      (R.HandleRead (encodeU32 S.m_seq ++ payloadDATA)).m_expectedSeq = R.m_expectedSeq) ∧
    ((S.fireTimeout.HandleRead (encodeU32 S.m_seq)).m_seqCount = u32add S.m_seqCount 1 ∧
      (S.m_seqCount + 1 < 4294967296 →
        (S.fireTimeout.HandleRead (encodeU32 S.m_seq)).m_seqCount = S.m_seqCount + 1) ∧
      (S.fireTimeout.HandleRead (encodeU32 S.m_seq)).m_seq = 1 - S.m_seq ∧
      (S.fireTimeout.HandleRead (encodeU32 S.m_seq)).m_waitingAck = false) := by
  have hlt : S.m_seq < 4294967296 := by omega
  have hd1 := decodeU32_encodeU32_append S.m_seq payloadDATA hlt
  have hd2 : decodeU32 (encodeU32 S.m_seq) = S.m_seq := by
    have := decodeU32_encodeU32_append S.m_seq [] hlt
    simpa using this
  have hl1 : ¬ (encodeU32 S.m_seq ++ payloadDATA).length < 4 := by
    simp [encodeU32, payloadDATA]
  have hl2 : ¬ (encodeU32 S.m_seq).length < 4 := by
    simp [encodeU32]
  have hne : S.m_seq ≠ R.m_expectedSeq := by omega
  have hsub : u32sub 1 R.m_expectedSeq = S.m_seq := by
    simp only [u32sub]; omega
  have hsub2 : u32sub 1 S.m_seq = 1 - S.m_seq := by
    simp only [u32sub]; omega
  refine ⟨⟨rfl, rfl, hd1, rfl, rfl, ?_⟩, ⟨?_, hd2, ?_⟩, ?_⟩
  · intro S0 h1 h2 h3
    have h3' : ¬ S0.m_totalPackets ≤ S0.m_seqCount := by omega
    simp only [SWSender.SendNewPacket, if_neg h3', h2, Bool.false_eq_true, if_false, h1]
  · simp only [SWReceiver.HandleRead, if_neg hl1, hd1, if_neg hne, SWReceiver.SendAck, hsub]
  · simp only [SWReceiver.HandleRead, if_neg hl1, hd1, if_neg hne, SWReceiver.SendAck]
  · have hacc : decodeU32 (encodeU32 S.m_seq) = S.fireTimeout.m_seq ∧
        S.fireTimeout.m_waitingAck = true := ⟨hd2, hw⟩
    have e : S.fireTimeout.HandleRead (encodeU32 S.m_seq) =
        { S.fireTimeout with
            m_waitingAck := false, m_seqCount := u32add S.fireTimeout.m_seqCount 1,
            m_seq := u32sub 1 S.fireTimeout.m_seq, m_retxEvent := false,
            pendingSend := S.fireTimeout.pendingSend ++ [S.fireTimeout.m_interPacket] } := by
      simp only [SWSender.HandleRead, if_neg hl2, if_pos hacc]
    rw [e]
    refine ⟨rfl, ?_, hsub2, rfl⟩
    intro h
    show u32add S.m_seqCount 1 = _
    simp only [u32add]; omega

/-- Witness for C18 with `s = 0`: the sender waits for the ack of bit 0, the receiver already
expects bit 1. -/
theorem SWSender.lost_ack_recovery_witness :
    (SWSender.Setup 500 6 200).StartApplication.fireTimeout.sent
      = [[0, 0, 0, 0, 68, 65, 84, 65]] ++ [encodeU32 0 ++ payloadDATA] ∧
    ((⟨1, [[0, 0, 0, 0]]⟩ : SWReceiver).HandleRead (encodeU32 0 ++ payloadDATA)).sent
      = [[0, 0, 0, 0]] ++ [encodeU32 0] ∧
    ((SWSender.Setup 500 6 200).StartApplication.fireTimeout.HandleRead (encodeU32 0)).m_seq
      = 1 - 0 :=
  ⟨(SWSender.lost_ack_recovery (SWSender.Setup 500 6 200).StartApplication ⟨1, [[0, 0, 0, 0]]⟩
      (Or.inl rfl) rfl rfl).1.1,
   (SWSender.lost_ack_recovery (SWSender.Setup 500 6 200).StartApplication ⟨1, [[0, 0, 0, 0]]⟩
      (Or.inl rfl) rfl rfl).2.1.1,
   (SWSender.lost_ack_recovery (SWSender.Setup 500 6 200).StartApplication ⟨1, [[0, 0, 0, 0]]⟩
      (Or.inl rfl) rfl rfl).2.2.2.2.1⟩

/-! ## Go-Back-N sender and receiver joined by a channel -/

theorem GoBackNSender.sendLoop_sent_lt (fuel : Nat) (s : GoBackNSender)
    (hf : s.m_totalPackets - s.m_nextSeq ≤ fuel)
    (h : ∀ k, k ∈ s.sent → k < s.m_totalPackets) :
    ∀ k, k ∈ (GoBackNSender.sendLoop fuel s).sent → k < s.m_totalPackets := by
  obtain ⟨-, x2, x3, -⟩ := GoBackNSender.sendLoop_exit fuel s hf
  obtain ⟨-, y2⟩ := GoBackNSender.sendLoop_sent fuel s
  intro k hk
  rw [y2, List.mem_append] at hk
  rcases hk with hk | hk
  · exact h k hk
  · rw [List.mem_range'_1] at hk
    omega

theorem GoBackNSender.SendWindow_sent_lt (s : GoBackNSender)
    (h : ∀ k, k ∈ s.sent → k < s.m_totalPackets) :
    ∀ k, k ∈ s.SendWindow.sent → k < s.m_totalPackets := by
  have := GoBackNSender.sendLoop_sent_lt (s.m_totalPackets - s.m_nextSeq) s (le_refl _) h
  simp only [GoBackNSender.SendWindow]
  split_ifs <;> exact this

theorem GoBackNSender.step_sent_lt (s : GoBackNSender) (e : GbnEvent)
    (h : ∀ k, k ∈ s.sent → k < s.m_totalPackets) :
    (s.step e).m_totalPackets = s.m_totalPackets ∧
    ∀ k, k ∈ (s.step e).sent → k < s.m_totalPackets := by
  cases e with
  | timeout =>
    simp only [GoBackNSender.step, GoBackNSender.fireTimeout, GoBackNSender.Timeout]
    exact ⟨(GoBackNSender.SendWindow_frame _).1, GoBackNSender.SendWindow_sent_lt _ h⟩
  | ack a =>
    simp only [GoBackNSender.step, GoBackNSender.HandleAck]
    split_ifs with h1 h2 h3 h4 h5
    · exact ⟨(GoBackNSender.SendWindow_frame _).1, GoBackNSender.SendWindow_sent_lt _ h⟩
    · exact ⟨rfl, h⟩
    · exact ⟨(GoBackNSender.SendWindow_frame _).1, GoBackNSender.SendWindow_sent_lt _ h⟩
    · exact ⟨rfl, h⟩
    · exact ⟨(GoBackNSender.SendWindow_frame _).1, GoBackNSender.SendWindow_sent_lt _ h⟩
    · exact ⟨rfl, h⟩

theorem GoBackNSender.HandleAck_base_cases (s : GoBackNSender) (a : Nat) :
    (s.HandleAck a).m_base = if s.m_base ≤ a then u32add a 1 else s.m_base := by
  simp only [GoBackNSender.HandleAck]
  split_ifs <;> first | rfl | rw [(GoBackNSender.SendWindow_frame _).2.2.1]

theorem GbnSystem.sys_step_inv (n : Nat) (hn : n < 4294967296) (y z : GbnSystem) (e : GbnSysEvent)
    (hy : GbnSystem.Inv n y) (h : y.step e = some z) : GbnSystem.Inv n z := by
  obtain ⟨i1, i2, i3, i4, i5⟩ := hy
  cases e with
  | timeout =>
    simp only [GbnSystem.step] at h
    split_ifs at h with hlive
    simp only [Option.some.injEq] at h
    subst h
    obtain ⟨s1, s2⟩ := GoBackNSender.step_sent_lt y.sender GbnEvent.timeout
      (fun k hk => i1 ▸ i2 k hk)
    refine ⟨s1.trans i1, fun k hk => i1 ▸ s2 k hk, i3, i4, ?_⟩
    show (GoBackNSender.SendWindow _).m_base ≤ _
    rw [(GoBackNSender.SendWindow_frame _).2.2.1]
    exact i5
  | data i =>
    simp only [GbnSystem.step, Option.map_eq_some'] at h
    obtain ⟨seq, hseq, hz⟩ := h
    subst hz
    have hmem : seq ∈ y.sender.sent := List.get?_mem hseq
    have hlt := i2 seq hmem
    refine ⟨i1, i2, ?_, ?_, ?_⟩
    · show (y.receiver.HandleRead seq).m_expected ≤ n
      simp only [GoBackNReceiver.HandleRead]
      split_ifs with hm
      · simp only [u32add]; omega
      · exact i3
    · intro a ha
      change a ∈ (y.receiver.HandleRead seq).sent at ha
      show u32add a 1 ≤ (y.receiver.HandleRead seq).m_expected
      simp only [GoBackNReceiver.HandleRead] at ha ⊢
      split_ifs at ha ⊢ with hm
      · simp only [List.mem_append, List.mem_singleton] at ha
        rcases ha with ha | ha
        · have := i4 a ha
          simp only [u32add] at this ⊢; omega
        · rw [ha]
          simp only [u32add, u32sub]; omega
      · simp only [List.mem_append, List.mem_singleton] at ha
        rcases ha with ha | ha
        · exact i4 a ha
        · rw [ha]
          simp only [u32add, u32sub]; omega
    · show y.sender.m_base ≤ (y.receiver.HandleRead seq).m_expected
      simp only [GoBackNReceiver.HandleRead]
      split_ifs with hm
      · simp only [u32add]; omega
      · exact i5
  | ack j =>
    simp only [GbnSystem.step, Option.map_eq_some'] at h
    obtain ⟨a, ha, hz⟩ := h
    subst hz
    have hmem : a ∈ y.receiver.sent := List.get?_mem ha
    obtain ⟨s1, s2⟩ := GoBackNSender.step_sent_lt y.sender (GbnEvent.ack a)
      (fun k hk => i1 ▸ i2 k hk)
    refine ⟨s1.trans i1, fun k hk => i1 ▸ s2 k hk, i3, i4, ?_⟩
    show (y.sender.HandleAck a).m_base ≤ _
    rw [GoBackNSender.HandleAck_base_cases]
    split_ifs with hb
    · exact i4 a hmem
    · exact i5

theorem GbnSystem.sys_run_inv (n : Nat) (hn : n < 4294967296) :
    ∀ (evs : List GbnSysEvent) (y z : GbnSystem),
      GbnSystem.Inv n y → GbnSystem.run y evs = some z → GbnSystem.Inv n z := by
  intro evs
  induction evs with
  | nil =>
    intro y z hy h
    simp only [GbnSystem.run, Option.some.injEq] at h
    exact h ▸ hy
  | cons e es ih =>
    intro y z hy h
    simp only [GbnSystem.run, Option.bind_eq_some] at h
    obtain ⟨u, hu, hrest⟩ := h
    exact ih u z (GbnSystem.sys_step_inv n hn y u e hy hu) hrest

theorem GbnSystem.sys_start_inv (n w : Nat) : GbnSystem.Inv n (GbnSystem.start n w) := by
  refine ⟨(GoBackNSender.SendWindow_frame _).1, ?_, Nat.zero_le _, ?_, ?_⟩
  · intro k hk
    exact GoBackNSender.SendWindow_sent_lt (GoBackNSender.Setup n w)
      (fun k hk => by simp [GoBackNSender.Setup] at hk) k hk
  · intro a ha
    simp [GbnSystem.start] at ha
  · show (GoBackNSender.SendWindow _).m_base ≤ _
    rw [(GoBackNSender.SendWindow_frame _).2.2.1]
    simp [GoBackNSender.Setup, GbnSystem.start]

/-- C19. Go-Back-N no spurious advance, end to end.  Join `GoBackNSender` and
`GoBackNReceiver` by a channel that delivers only messages that were sent, late, repeatedly or
never.  With `totalPackets < 2^32`, in every state reached from the start of both applications
by firings of the running timer and deliveries of data packets and acks, the sender's `m_base`
is at most the receiver's `m_expected`. -/
theorem GbnSystem.base_le_expected (totalPackets windowSize : Nat) (evs : List GbnSysEvent)
    (y : GbnSystem) (hn : totalPackets < 4294967296)
    (h : GbnSystem.run (GbnSystem.start totalPackets windowSize) evs = some y) :
    y.sender.m_base ≤ y.receiver.m_expected :=
  (GbnSystem.sys_run_inv totalPackets hn evs _ y (GbnSystem.sys_start_inv totalPackets windowSize)
    h).2.2.2.2

set_option maxRecDepth 4000 in
/-- Witness for C19: ten packets, window four.  Packet 0 is lost; packet 1 arrives and is
answered by ack 4294967295; that ack arrives; the timer fires; the resent packets 0 and 1
arrive; the ack of packet 1 arrives, and the ack 4294967295 arrives once more. -/
theorem GbnSystem.base_le_expected_witness :
    GbnSystem.run (GbnSystem.start 10 4)
        [GbnSysEvent.data 1, GbnSysEvent.ack 0, GbnSysEvent.timeout, GbnSysEvent.data 4,
         GbnSysEvent.data 5, GbnSysEvent.ack 2, GbnSysEvent.ack 0]
      = some ⟨⟨10, 4, 0, 6, true, [0, 1, 2, 3, 0, 1, 2, 3, 4, 5]⟩, ⟨2, [4294967295, 0, 1]⟩⟩ ∧
    (0 : Nat) ≤ 2 :=
  ⟨by decide,
   GbnSystem.base_le_expected 10 4
      [GbnSysEvent.data 1, GbnSysEvent.ack 0, GbnSysEvent.timeout, GbnSysEvent.data 4,
       GbnSysEvent.data 5, GbnSysEvent.ack 2, GbnSysEvent.ack 0]
      ⟨⟨10, 4, 0, 6, true, [0, 1, 2, 3, 0, 1, 2, 3, 4, 5]⟩, ⟨2, [4294967295, 0, 1]⟩⟩
      (by decide) (by decide)⟩

/-! ## Go-Back-N: the loss-free run -/

theorem range_append_rangeFrom (a b : Nat) :
    List.range a ++ List.range' a b = List.range (a + b) := by
  have := List.range'_append_1 0 a b
  rw [Nat.zero_add] at this
  rw [List.range_eq_range', List.range_eq_range', this, Nat.add_comm]

/-- Postcondition of `SendWindow` when either nothing is left to send or
`m_base + m_windowSize` does not wrap. -/
theorem GoBackNSender.SendWindow_fill_upto (n w : Nat) (s : GoBackNSender)
    (hn : s.m_totalPackets = n) (hw : s.m_windowSize = w)
    (hle : s.m_nextSeq ≤ n) (hwin : s.m_nextSeq ≤ s.m_base + w)
    (hov : s.m_nextSeq = n ∨ s.m_base + w < 4294967296) :
    s.SendWindow.m_totalPackets = n ∧ s.SendWindow.m_windowSize = w ∧
    s.SendWindow.m_base = s.m_base ∧
    s.m_nextSeq ≤ s.SendWindow.m_nextSeq ∧ s.SendWindow.m_nextSeq ≤ n ∧
    s.SendWindow.m_nextSeq ≤ s.m_base + w ∧
    (s.SendWindow.m_nextSeq = s.m_base + w ∨ s.SendWindow.m_nextSeq = n) ∧
    s.SendWindow.sent =
      s.sent ++ List.range' s.m_nextSeq (s.SendWindow.m_nextSeq - s.m_nextSeq) ∧
    s.SendWindow.m_timeoutEvent = true := by
  obtain ⟨f1, f2, f3, f4, f5⟩ := GoBackNSender.SendWindow_frame s
  obtain ⟨g1, g2, g3, g4⟩ := GoBackNSender.gbn_sendLoop_frame (s.m_totalPackets - s.m_nextSeq) s
  obtain ⟨x1, x2, x3, -⟩ := GoBackNSender.sendLoop_exit (s.m_totalPackets - s.m_nextSeq) s
    (le_refl _)
  obtain ⟨-, y2⟩ := GoBackNSender.sendLoop_sent (s.m_totalPackets - s.m_nextSeq) s
  have y1 := GoBackNSender.sendLoop_window (s.m_totalPackets - s.m_nextSeq) s (by omega)
  simp only [GoBackNSender.canSend, u32add, g1, g2, g3] at x1
  have hsent : s.SendWindow.sent
      = (GoBackNSender.sendLoop (s.m_totalPackets - s.m_nextSeq) s).sent := by
    simp only [GoBackNSender.SendWindow]
    split_ifs <;> rfl
  refine ⟨f1.trans hn, f2.trans hw, f3, ?_, ?_, ?_, ?_, ?_, f5⟩
  · rw [f4]; omega
  · rw [f4]; omega
  · rw [f4]; omega
  · rw [f4]; omega
  · rw [hsent, f4]; exact y2

theorem GbnFifo.fifo_start_inv (n w : Nat) (hn1 : 1 ≤ n) (hw : w < 4294967296) :
    GbnFifo.Inv n w (GbnFifo.start n w) ∧
    (GbnFifo.start n w).sys.sender.sent = List.range (min w n) := by
  have b0 : (GoBackNSender.Setup n w).m_base = 0 := rfl
  have n0 : (GoBackNSender.Setup n w).m_nextSeq = 0 := rfl
  have s0 : (GoBackNSender.Setup n w).sent = [] := rfl
  obtain ⟨p1, p2, p3, -, p5, p6, p7, p8, p9⟩ :=
    GoBackNSender.SendWindow_fill_upto n w (GoBackNSender.Setup n w) rfl rfl
      (Nat.zero_le _) (Nat.zero_le _) (Or.inr (by rw [b0]; omega))
  rw [b0] at p3 p6 p7
  rw [s0, n0, List.nil_append, Nat.sub_zero, ← List.range_eq_range'] at p8
  rw [Nat.zero_add] at p6 p7
  refine ⟨⟨p1, p2, p8, rfl, rfl, p3, le_refl _, Nat.zero_le _, p5, ?_, ?_, ?_⟩, ?_⟩
  · show (GoBackNSender.Setup n w).SendWindow.m_nextSeq ≤ 0 + w
    omega
  · show (GoBackNSender.Setup n w).SendWindow.m_nextSeq = 0 + w ∨
      (GoBackNSender.Setup n w).SendWindow.m_nextSeq = n
    omega
  · show (GoBackNSender.Setup n w).SendWindow.m_timeoutEvent = true ↔ 0 ≠ n
    rw [p9]
    simp only [true_iff]
    omega
  · show (GoBackNSender.Setup n w).SendWindow.sent = _
    rw [p8]
    congr 1
    omega

theorem GbnFifo.deliverData_spec (n w : Nat) (hn : n < 4294967296) (f : GbnFifo)
    (hf : GbnFifo.Inv n w f) :
    (f.dataDelivered < f.sys.sender.m_nextSeq →
      ∃ g, f.deliverData = some g ∧ GbnFifo.Inv n w g ∧
        g.dataDelivered = f.dataDelivered + 1 ∧ g.acksDelivered = f.acksDelivered) ∧
    (¬ f.dataDelivered < f.sys.sender.m_nextSeq → f.deliverData = none) := by
  obtain ⟨i1, i2, i3, i4, i5, i6, i7, i8, i9, i10, i11, i12⟩ := hf
  constructor
  · intro hd
    have hget : f.sys.sender.sent.get? f.dataDelivered = some f.dataDelivered := by
      rw [i3, List.get?_eq_getElem?]; exact List.getElem?_range hd
    have hread : f.sys.receiver.HandleRead f.dataDelivered
        = ⟨f.dataDelivered + 1, List.range (f.dataDelivered + 1)⟩ := by
      have e1 : u32add f.dataDelivered 1 = f.dataDelivered + 1 := by
        simp only [u32add]; omega
      have e2 : u32sub (f.dataDelivered + 1) 1 = f.dataDelivered := by
        simp only [u32sub]; omega
      simp only [GoBackNReceiver.HandleRead, i4, if_true, e1, e2, i5, List.range_succ]
    refine ⟨{ f with sys := { f.sys with receiver := f.sys.receiver.HandleRead f.dataDelivered },
                     dataDelivered := f.dataDelivered + 1 }, ?_, ?_, rfl, rfl⟩
    · simp only [GbnFifo.deliverData, GbnSystem.step, hget, Option.map_some']
    · rw [hread]
      exact ⟨i1, i2, i3, rfl, rfl, i6, Nat.le_succ_of_le i7, hd, i9, i10, i11, i12⟩
  · intro hd
    have hget : f.sys.sender.sent.get? f.dataDelivered = none := by
      rw [List.get?_eq_none, i3, List.length_range]; omega
    simp only [GbnFifo.deliverData, GbnSystem.step, hget, Option.map_none']

theorem GbnFifo.ack_fill (n w : Nat) (hn : n < 4294967296) (f : GbnFifo)
    (hf : GbnFifo.Inv n w f)
    (s1 : GoBackNSender) (h1 : s1.m_totalPackets = n) (h2 : s1.m_windowSize = w)
    (h3 : s1.m_base = f.acksDelivered + 1) (h4 : s1.m_nextSeq = f.sys.sender.m_nextSeq)
    (h5 : s1.sent = f.sys.sender.sent) (hlt : f.acksDelivered + 1 < n)
    (ha : f.acksDelivered < f.dataDelivered) :
    GbnFifo.Inv n w ⟨⟨s1.SendWindow, f.sys.receiver⟩, f.dataDelivered, f.acksDelivered + 1⟩ := by
  obtain ⟨-, -, i3, i4, i5, i6, i7, i8, i9, i10, i11, i12⟩ := hf
  obtain ⟨p1, p2, p3, p4, p5, p6, p7, p8, p9⟩ :=
    GoBackNSender.SendWindow_fill_upto n w s1 h1 h2 (by omega) (by omega) (by omega)
  rw [h3] at p3 p6 p7
  rw [h4] at p4
  rw [h5, h4, i3, range_append_rangeFrom] at p8
  have e : f.sys.sender.m_nextSeq + (s1.SendWindow.m_nextSeq - f.sys.sender.m_nextSeq)
      = s1.SendWindow.m_nextSeq := by omega
  rw [e] at p8
  refine ⟨p1, p2, p8, i4, i5, p3, ?_, ?_, p5, p6, p7, ?_⟩
  · show f.acksDelivered + 1 ≤ f.dataDelivered
    omega
  · show f.dataDelivered ≤ s1.SendWindow.m_nextSeq
    omega
  · show s1.SendWindow.m_timeoutEvent = true ↔ f.acksDelivered + 1 ≠ n
    rw [p9]
    simp only [true_iff]
    omega

theorem GbnFifo.deliverAck_spec (n w : Nat) (hn : n < 4294967296) (f : GbnFifo)
    (hf : GbnFifo.Inv n w f) :
    (f.acksDelivered < f.dataDelivered →
      ∃ g, f.deliverAck = some g ∧ GbnFifo.Inv n w g ∧
        g.dataDelivered = f.dataDelivered ∧ g.acksDelivered = f.acksDelivered + 1) ∧
    (¬ f.acksDelivered < f.dataDelivered → f.deliverAck = none) := by
  have hf' := hf
  obtain ⟨i1, i2, i3, i4, i5, i6, i7, i8, i9, i10, i11, i12⟩ := hf
  constructor
  · intro ha
    have hget : f.sys.receiver.sent.get? f.acksDelivered = some f.acksDelivered := by
      rw [i5, List.get?_eq_getElem?]; exact List.getElem?_range ha
    have e1 : u32add f.acksDelivered 1 = f.acksDelivered + 1 := by
      simp only [u32add]; omega
    have hinv : GbnFifo.Inv n w
        ⟨⟨f.sys.sender.HandleAck f.acksDelivered, f.sys.receiver⟩, f.dataDelivered,
          f.acksDelivered + 1⟩ := by
      simp only [GoBackNSender.HandleAck, i6, le_refl, if_true, e1]
      by_cases hb : f.acksDelivered + 1 = f.sys.sender.m_nextSeq
      · rw [if_pos hb]
        by_cases hlt : f.acksDelivered + 1 < f.sys.sender.m_totalPackets
        · rw [if_pos hlt]
          exact GbnFifo.ack_fill n w hn f hf' _ i1 i2 rfl rfl rfl (by omega) ha
        · rw [if_neg hlt]
          refine ⟨i1, i2, i3, i4, i5, rfl, ?_, i8, i9, ?_, Or.inr ?_, ?_⟩
          · show f.acksDelivered + 1 ≤ f.dataDelivered
            omega
          · show f.sys.sender.m_nextSeq ≤ f.acksDelivered + 1 + w
            omega
          · show f.sys.sender.m_nextSeq = n
            omega
          · show false = true ↔ f.acksDelivered + 1 ≠ n
            simp only [Bool.false_eq_true, false_iff, ne_eq, not_not]
            omega
      · rw [if_neg hb]
        have hlt : f.acksDelivered + 1 < f.sys.sender.m_totalPackets := by omega
        rw [if_pos hlt]
        exact GbnFifo.ack_fill n w hn f hf' _ i1 i2 rfl rfl rfl (by omega) ha
    refine ⟨_, ?_, hinv, rfl, rfl⟩
    simp only [GbnFifo.deliverAck, GbnSystem.step, hget, Option.map_some']
  · intro ha
    have hget : f.sys.receiver.sent.get? f.acksDelivered = none := by
      rw [List.get?_eq_none, i5, List.length_range]; omega
    simp only [GbnFifo.deliverAck, GbnSystem.step, hget, Option.map_none']

theorem GbnFifo.fifo_run_inv (n w : Nat) (hn : n < 4294967296) :
    ∀ (sched : List Bool) (f g : GbnFifo),
      GbnFifo.Inv n w f → GbnFifo.run f sched = some g → GbnFifo.Inv n w g := by
  intro sched
  induction sched with
  | nil =>
    intro f g hf h
    simp only [GbnFifo.run, Option.some.injEq] at h
    exact h ▸ hf
  | cons b r ih =>
    intro f g hf h
    cases b with
    | true =>
      simp only [GbnFifo.run, Option.bind_eq_some] at h
      obtain ⟨u, hu, hrest⟩ := h
      obtain ⟨d1, d2⟩ := GbnFifo.deliverData_spec n w hn f hf
      by_cases hd : f.dataDelivered < f.sys.sender.m_nextSeq
      · obtain ⟨u', hu', hinv, -, -⟩ := d1 hd
        rw [hu] at hu'
        simp only [Option.some.injEq] at hu'
        exact ih u g (hu' ▸ hinv) hrest
      · rw [d2 hd] at hu
        exact absurd hu (by simp)
    | false =>
      simp only [GbnFifo.run, Option.bind_eq_some] at h
      obtain ⟨u, hu, hrest⟩ := h
      obtain ⟨d1, d2⟩ := GbnFifo.deliverAck_spec n w hn f hf
      by_cases hd : f.acksDelivered < f.dataDelivered
      · obtain ⟨u', hu', hinv, -, -⟩ := d1 hd
        rw [hu] at hu'
        simp only [Option.some.injEq] at hu'
        exact ih u g (hu' ▸ hinv) hrest
      · rw [d2 hd] at hu
        exact absurd hu (by simp)

theorem GbnFifo.quiescent_final (n w : Nat) (hw1 : 1 ≤ w) (f : GbnFifo)
    (hf : GbnFifo.Inv n w f) (hq : f.quiescent) :
    f.sys.sender.sent = List.range n ∧ f.sys.sender.m_base = n ∧
    f.sys.sender.m_nextSeq = n ∧ f.sys.receiver.m_expected = n ∧
    f.sys.sender.m_timeoutEvent = false ∧ f.sys.receiver.sent = List.range n := by
  obtain ⟨i1, i2, i3, i4, i5, i6, i7, i8, i9, i10, i11, i12⟩ := hf
  obtain ⟨q1, q2⟩ := hq
  rw [i3, List.length_range] at q1
  rw [i5, List.length_range] at q2
  have ha : f.acksDelivered = n := by omega
  have hd : f.dataDelivered = n := by omega
  have hs : f.sys.sender.m_nextSeq = n := by omega
  refine ⟨by rw [i3, hs], by rw [i6, ha], hs, by rw [i4, hd], ?_, by rw [i5, hd]⟩
  cases ht : f.sys.sender.m_timeoutEvent with
  | false => rfl
  | true => exact absurd ha (i12.mp ht)

theorem GbnFifo.drain_spec (n w : Nat) (hn : n < 4294967296) :
    ∀ (fuel : Nat) (f : GbnFifo), GbnFifo.Inv n w f →
      (n - f.dataDelivered) + (n - f.acksDelivered) ≤ fuel →
      (GbnFifo.drain fuel f).quiescent ∧
      ∃ sched, GbnFifo.run f sched = some (GbnFifo.drain fuel f) := by
  intro fuel
  induction fuel with
  | zero =>
    intro f hf hm
    obtain ⟨i1, i2, i3, i4, i5, i6, i7, i8, i9, i10, i11, i12⟩ := hf
    refine ⟨⟨?_, ?_⟩, [], rfl⟩
    · show f.dataDelivered = f.sys.sender.sent.length
      rw [i3, List.length_range]; omega
    · show f.acksDelivered = f.sys.receiver.sent.length
      rw [i5, List.length_range]; omega
  | succ k ih =>
    intro f hf hm
    obtain ⟨d1, d2⟩ := GbnFifo.deliverData_spec n w hn f hf
    obtain ⟨a1, a2⟩ := GbnFifo.deliverAck_spec n w hn f hf
    obtain ⟨i1, i2, i3, i4, i5, i6, i7, i8, i9, i10, i11, i12⟩ := hf
    by_cases hd : f.dataDelivered < f.sys.sender.m_nextSeq
    · obtain ⟨g, hg, hinv, g1, g2⟩ := d1 hd
      have hm2 : (n - g.dataDelivered) + (n - g.acksDelivered) ≤ k := by
        rw [g1, g2]
        clear d1 d2 a1 a2 ih hinv hg
        omega
      obtain ⟨q, sched, hs⟩ := ih g hinv hm2
      have e : GbnFifo.drain (k + 1) f = GbnFifo.drain k g := by
        simp only [GbnFifo.drain, hg]
      rw [e]
      exact ⟨q, true :: sched, by simp only [GbnFifo.run, hg, Option.some_bind, hs]⟩
    · by_cases ha : f.acksDelivered < f.dataDelivered
      · obtain ⟨g, hg, hinv, g1, g2⟩ := a1 ha
        have hm2 : (n - g.dataDelivered) + (n - g.acksDelivered) ≤ k := by
          rw [g1, g2]
          clear d1 d2 a1 a2 ih hinv hg
          omega
        obtain ⟨q, sched, hs⟩ := ih g hinv hm2
        have e : GbnFifo.drain (k + 1) f = GbnFifo.drain k g := by
          simp only [GbnFifo.drain, d2 hd, hg]
        rw [e]
        exact ⟨q, false :: sched, by simp only [GbnFifo.run, hg, Option.some_bind, hs]⟩
      · have e : GbnFifo.drain (k + 1) f = f := by
          simp only [GbnFifo.drain, d2 hd, a2 ha]
        rw [e]
        refine ⟨⟨?_, ?_⟩, [], rfl⟩
        · show f.dataDelivered = f.sys.sender.sent.length
          rw [i3, List.length_range]
          clear d1 d2 a1 a2 ih
          omega
        · show f.acksDelivered = f.sys.receiver.sent.length
          rw [i5, List.length_range]
          clear d1 d2 a1 a2 ih
          omega

/-- C17. Go-Back-N loss-free run.  Let `1 ≤ n < 2^32` packets and a window `1 ≤ W < 2^32`.
`StartApplication` sends exactly `0, ..., min(W, n) - 1`.  In every schedule that delivers the
data packets to the receiver and the acks to the sender, each once and in the order of
sending, with no timeout, the packets sent so far are `0, ..., m_nextSeq - 1`, each once and in
increasing order; and once nothing is in flight the sender has sent `0, ..., n - 1`, has
`m_base = m_nextSeq = n` and no running timer, and the receiver has `m_expected = n`.  Such a
state is reached: delivering whatever is in flight, at most `2 n` times, ends with nothing in
flight. -/
theorem GbnFifo.loss_free_run (n w : Nat) (hn1 : 1 ≤ n) (hw1 : 1 ≤ w)
    (hn : n < 4294967296) (hw : w < 4294967296) :
    (GbnFifo.start n w).sys.sender.sent = List.range (min w n) ∧
    (∀ (sched : List Bool) (f : GbnFifo), GbnFifo.run (GbnFifo.start n w) sched = some f →
      f.sys.sender.sent = List.range f.sys.sender.m_nextSeq ∧
      f.sys.sender.m_nextSeq ≤ n ∧
      (f.quiescent →
        f.sys.sender.sent = List.range n ∧ f.sys.sender.m_base = n ∧
        f.sys.sender.m_nextSeq = n ∧ f.sys.receiver.m_expected = n ∧
        f.sys.sender.m_timeoutEvent = false)) ∧
    ((GbnFifo.drain (2 * n) (GbnFifo.start n w)).quiescent ∧
      ∃ sched, GbnFifo.run (GbnFifo.start n w) sched
        = some (GbnFifo.drain (2 * n) (GbnFifo.start n w))) := by
  obtain ⟨h0, hfirst⟩ := GbnFifo.fifo_start_inv n w hn1 hw
  refine ⟨hfirst, ?_, ?_⟩
  · intro sched f hrun
    have hf := GbnFifo.fifo_run_inv n w hn sched _ f h0 hrun
    refine ⟨hf.2.2.1, hf.2.2.2.2.2.2.2.2.1, fun hq => ?_⟩
    obtain ⟨q1, q2, q3, q4, q5, -⟩ := GbnFifo.quiescent_final n w hw1 f hf hq
    exact ⟨q1, q2, q3, q4, q5⟩
  · refine GbnFifo.drain_spec n w hn (2 * n) _ h0 ?_
    show (n - 0) + (n - 0) ≤ 2 * n
    omega

set_option maxRecDepth 8000 in
/-- Witness for C17: window 4 and 10 packets, as configured in `main`. -/
theorem GbnFifo.loss_free_run_witness :
    (GbnFifo.start 10 4).sys.sender.sent = [0, 1, 2, 3] ∧
    GbnFifo.drain (2 * 10) (GbnFifo.start 10 4)
      = ⟨⟨⟨10, 4, 10, 10, false, [0, 1, 2, 3, 4, 5, 6, 7, 8, 9]⟩,
          ⟨10, [0, 1, 2, 3, 4, 5, 6, 7, 8, 9]⟩⟩, 10, 10⟩ ∧
    (GbnFifo.drain (2 * 10) (GbnFifo.start 10 4)).quiescent :=
  ⟨by decide, by decide,
   (GbnFifo.loss_free_run 10 4 (by decide) (by decide) (by decide) (by decide)).2.2.1⟩

/-! ## Go-Back-N: nothing to send -/

theorem GoBackNSender.SendWindow_idle (s : GoBackNSender) (h : ¬ s.canSend) :
    s.SendWindow = { s with m_timeoutEvent := true } := by
  simp only [GoBackNSender.SendWindow, GoBackNSender.sendLoop_noop _ s h]
  split_ifs with ht
  · cases s
    simp only at ht
    simp [ht]
  · rfl

theorem GoBackNSender.idle_canSend (n w : Nat) (h : n = 0 ∨ w = 0) (flag : Bool) :
    ¬ (⟨n, w, 0, 0, flag, []⟩ : GoBackNSender).canSend := by
  simp only [GoBackNSender.canSend, u32add]
  omega

/-- C22. Go-Back-N sender with nothing to send.  When `totalPackets = 0` or `windowSize = 0`,
`StartApplication` sends no packet and arms the timer; a timeout in that state sends no packet
and re-arms the timer; so after any number of timeouts the sender has `m_base = m_nextSeq = 0`,
an empty send log and a running timer. -/
theorem GoBackNSender.idle_timer (totalPackets windowSize : Nat)
    (h : totalPackets = 0 ∨ windowSize = 0) :
    (GoBackNSender.Setup totalPackets windowSize).StartApplication
      = ⟨totalPackets, windowSize, 0, 0, true, []⟩ ∧
    (⟨totalPackets, windowSize, 0, 0, true, []⟩ : GoBackNSender).fireTimeout
      = ⟨totalPackets, windowSize, 0, 0, true, []⟩ ∧
    (⟨totalPackets, windowSize, 0, 0, true, []⟩ : GoBackNSender).Timeout
      = ⟨totalPackets, windowSize, 0, 0, true, []⟩ ∧
    (∀ k : Nat,
      GoBackNSender.run GoBackNSender.liveAndSent
        (GoBackNSender.Setup totalPackets windowSize).StartApplication
        (List.replicate k GbnEvent.timeout)
      = some ⟨totalPackets, windowSize, 0, 0, true, []⟩) := by
  have hstart : (GoBackNSender.Setup totalPackets windowSize).StartApplication
      = ⟨totalPackets, windowSize, 0, 0, true, []⟩ := by
    show GoBackNSender.SendWindow ⟨totalPackets, windowSize, 0, 0, false, []⟩ = _
    rw [GoBackNSender.SendWindow_idle _ (GoBackNSender.idle_canSend _ _ h false)]
  have hfire : (⟨totalPackets, windowSize, 0, 0, true, []⟩ : GoBackNSender).fireTimeout
      = ⟨totalPackets, windowSize, 0, 0, true, []⟩ := by
    show GoBackNSender.SendWindow ⟨totalPackets, windowSize, 0, 0, false, []⟩ = _
    rw [GoBackNSender.SendWindow_idle _ (GoBackNSender.idle_canSend _ _ h false)]
  have hbody : (⟨totalPackets, windowSize, 0, 0, true, []⟩ : GoBackNSender).Timeout
      = ⟨totalPackets, windowSize, 0, 0, true, []⟩ := by
    show GoBackNSender.SendWindow ⟨totalPackets, windowSize, 0, 0, true, []⟩ = _
    rw [GoBackNSender.SendWindow_idle _ (GoBackNSender.idle_canSend _ _ h true)]
  refine ⟨hstart, hfire, hbody, fun k => ?_⟩
  rw [hstart]
  induction k with
  | zero => rfl
  | succ m ih =>
    simp only [List.replicate_succ, GoBackNSender.run, GoBackNSender.liveAndSent, if_true,
      GoBackNSender.step, hfire]
    exact ih

/-- Witness for C22: ten packets with window zero, and no packets with window four; three
timeouts each. -/
theorem GoBackNSender.idle_timer_witness :
    GoBackNSender.run GoBackNSender.liveAndSent (GoBackNSender.Setup 10 0).StartApplication
        (List.replicate 3 GbnEvent.timeout) = some ⟨10, 0, 0, 0, true, []⟩ ∧
    GoBackNSender.run GoBackNSender.liveAndSent (GoBackNSender.Setup 0 4).StartApplication
        (List.replicate 3 GbnEvent.timeout) = some ⟨0, 4, 0, 0, true, []⟩ :=
  ⟨(GoBackNSender.idle_timer 10 0 (Or.inr rfl)).2.2.2 3,
   (GoBackNSender.idle_timer 0 4 (Or.inl rfl)).2.2.2 3⟩

/-! ## Go-Back-N: the wrapped ack of the first out-of-order packet -/

theorem GbnSystem.step_acked_total (n : Nat) (y z : GbnSystem) (e : GbnSysEvent)
    (hy : GbnSystem.Inv n y) (hp : y.receiver.sent ≠ [] → 0 < n)
    (h : y.step e = some z) : z.receiver.sent ≠ [] → 0 < n := by
  cases e with
  | timeout =>
    simp only [GbnSystem.step] at h
    split_ifs at h with hlive
    simp only [Option.some.injEq] at h
    subst h
    exact hp
  | data i =>
    simp only [GbnSystem.step, Option.map_eq_some'] at h
    obtain ⟨seq, hseq, hz⟩ := h
    intro _
    have := hy.2.1 seq (List.get?_mem hseq)
    omega
  | ack j =>
    simp only [GbnSystem.step, Option.map_eq_some'] at h
    obtain ⟨a, ha, hz⟩ := h
    subst hz
    exact hp

theorem GbnSystem.run_acked_total (n : Nat) (hn : n < 4294967296) :
    ∀ (evs : List GbnSysEvent) (y z : GbnSystem),
      GbnSystem.Inv n y → (y.receiver.sent ≠ [] → 0 < n) → GbnSystem.run y evs = some z →
      (z.receiver.sent ≠ [] → 0 < n) := by
  intro evs
  induction evs with
  | nil =>
    intro y z _ hp h
    simp only [GbnSystem.run, Option.some.injEq] at h
    exact h ▸ hp
  | cons e es ih =>
    intro y z hy hp h
    simp only [GbnSystem.run, Option.bind_eq_some] at h
    obtain ⟨u, hu, hrest⟩ := h
    exact ih u z (GbnSystem.sys_step_inv n hn y u e hy hu)
      (GbnSystem.step_acked_total n y u e hy hp hu) hrest

theorem GoBackNSender.HandleAck_wrapped (s : GoBackNSender) (hb : s.m_base < 4294967296) :
    (s.HandleAck 4294967295).m_base = 0 ∧
    (0 < s.m_totalPackets → (s.HandleAck 4294967295).m_timeoutEvent = true) ∧
    (s.m_nextSeq ≠ 0 → (s.HandleAck 4294967295).m_timeoutEvent = true) ∧
    (s.m_nextSeq = 0 → s.m_totalPackets = 0 →
      (s.HandleAck 4294967295).m_timeoutEvent = false) := by
  have hle : s.m_base ≤ 4294967295 := by omega
  have hz : u32add 4294967295 1 = 0 := by decide
  simp only [GoBackNSender.HandleAck, if_pos hle, hz]
  by_cases hn : 0 = s.m_nextSeq
  · rw [if_pos hn]
    by_cases ht : 0 < s.m_totalPackets
    · rw [if_pos ht]
      obtain ⟨-, -, f3, -, f5⟩ := GoBackNSender.SendWindow_frame
        { s with m_base := 0, m_timeoutEvent := false }
      exact ⟨f3, fun _ => f5, fun _ => f5, fun _ h0 => absurd ht (by omega)⟩
    · rw [if_neg ht]
      exact ⟨rfl, fun h0 => absurd h0 ht, fun h0 => absurd hn.symm h0, fun _ _ => rfl⟩
  · rw [if_neg hn]
    by_cases ht : 0 < s.m_totalPackets
    · rw [if_pos ht]
      obtain ⟨-, -, f3, -, f5⟩ := GoBackNSender.SendWindow_frame
        { s with m_base := 0, m_timeoutEvent := true }
      exact ⟨f3, fun _ => f5, fun _ => f5, fun h0 => absurd h0.symm hn⟩
    · rw [if_neg ht]
      exact ⟨rfl, fun _ => rfl, fun _ => rfl, fun h0 => absurd h0.symm hn⟩

/-- C21. Go-Back-N `uint32_t` wraparound on the first out-of-order packet.  A receiver with
`m_expected = 0` that receives any `seq ≠ 0` keeps `m_expected = 0` and sends the ack
`(0 - 1) mod 2^32 = 4294967295`.  For every `uint32_t` value of `m_base`, `HandleAck` on the
ack 4294967295 takes the branch `ack ≥ m_base` and sets `m_base` to
`(4294967295 + 1) mod 2^32 = 0`; afterwards the timer runs whenever `m_nextSeq ≠ 0` or
`m_totalPackets > 0`, and it is off only for a sender with `m_nextSeq = 0` and
`m_totalPackets = 0`.  In the joined system with `totalPackets < 2^32`, whenever the channel
delivers an ack 4294967295 to a sender whose `m_base` is 0, the sender keeps `m_base = 0` and
its timer runs afterwards. -/
theorem GoBackNSender.wrapped_ack (r : GoBackNReceiver) (s : GoBackNSender) (seq : Nat) :
    (r.m_expected = 0 → seq ≠ 0 →
      (r.HandleRead seq).m_expected = 0 ∧ (r.HandleRead seq).sent = r.sent ++ [4294967295]) ∧
    u32sub 0 1 = 4294967295 ∧ u32add 4294967295 1 = 0 ∧
    (s.m_base < 4294967296 →
      s.m_base ≤ 4294967295 ∧ (s.HandleAck 4294967295).m_base = 0 ∧
      (s.m_nextSeq ≠ 0 ∨ 0 < s.m_totalPackets →
        (s.HandleAck 4294967295).m_timeoutEvent = true) ∧
      (s.m_nextSeq = 0 → s.m_totalPackets = 0 →
        (s.HandleAck 4294967295).m_timeoutEvent = false)) ∧
    (∀ (totalPackets windowSize : Nat) (evs : List GbnSysEvent) (y z : GbnSystem) (j : Nat),
      totalPackets < 4294967296 →
      GbnSystem.run (GbnSystem.start totalPackets windowSize) evs = some y →
      y.receiver.sent.get? j = some 4294967295 → y.sender.m_base = 0 →
      y.step (GbnSysEvent.ack j) = some z →
      z.sender.m_base = 0 ∧ z.sender.m_timeoutEvent = true ∧ z.receiver = y.receiver) := by
  refine ⟨?_, by decide, by decide, ?_, ?_⟩
  · intro h0 hs
    have hne : ¬ seq = r.m_expected := by omega
    have hsub : u32sub r.m_expected 1 = 4294967295 := by rw [h0]; decide
    simp only [GoBackNReceiver.HandleRead, if_neg hne, hsub]
    exact ⟨h0, trivial⟩
  · intro hb
    obtain ⟨w1, w2, w3, w4⟩ := GoBackNSender.HandleAck_wrapped s hb
    refine ⟨by omega, w1, fun h => ?_, w4⟩
    rcases h with h | h
    · exact w3 h
    · exact w2 h
  · intro n w evs y z j hn hrun hget hbase hstep
    have hinv := GbnSystem.sys_run_inv n hn evs _ y (GbnSystem.sys_start_inv n w) hrun
    have hpos : 0 < n := by
      refine GbnSystem.run_acked_total n hn evs _ y (GbnSystem.sys_start_inv n w) ?_ hrun ?_
      · intro h; exact absurd rfl h
      · intro h
        rw [h] at hget
        simp at hget
    simp only [GbnSystem.step, hget, Option.map_some', Option.some.injEq] at hstep
    subst hstep
    obtain ⟨w1, w2, -, -⟩ := GoBackNSender.HandleAck_wrapped y.sender (by omega)
    exact ⟨w1, w2 (by rw [hinv.1]; exact hpos), rfl⟩

set_option maxRecDepth 4000 in
/-- Witness for C21: ten packets, window four.  Packet 0 is lost, packet 1 arrives first and is
answered by the ack 4294967295, which the sender with `m_base = 0` then handles. -/
theorem GoBackNSender.wrapped_ack_witness :
    ((⟨0, []⟩ : GoBackNReceiver).HandleRead 1) = ⟨0, [4294967295]⟩ ∧
    GbnSystem.run (GbnSystem.start 10 4) [GbnSysEvent.data 1, GbnSysEvent.ack 0]
      = some ⟨⟨10, 4, 0, 4, true, [0, 1, 2, 3]⟩, ⟨0, [4294967295]⟩⟩ ∧
    ((⟨10, 4, 0, 4, true, [0, 1, 2, 3]⟩ : GoBackNSender).HandleAck 4294967295).m_base = 0 :=
  ⟨by decide, by decide,
   ((GoBackNSender.wrapped_ack ⟨0, []⟩ ⟨10, 4, 0, 4, true, [0, 1, 2, 3]⟩ 1).2.2.2.1
      (by decide)).2.1⟩
